import Mathlib

/-!
# Camera/model transforms and frustum geometry

A shallow embedding of the two demo programs `matrixModelView` and
`matrixProjection` (`ModelGL.cpp`, `ModelGL.h`, `ControllerGL.cpp`).

Conventions of the embedding

* C++ `float` is read as an element of a field `K` (exact arithmetic); the
  rounding of IEEE arithmetic is outside the model.
* C++ `int` is read as `Int`; pointer coordinates arrive from 16-bit window
  message fields, so the differences the code forms stay far away from the
  range where signed overflow would be undefined.
* A `float[16]` array is a function `Fin 16 → K`; OpenGL stores element
  (row, col) of a matrix at index `col * 4 + row`.
* The fixed-function OpenGL matrix calls used by the source (`glLoadIdentity`,
  `glRotatef`, `glTranslatef`, `glMultMatrixf`, `glLoadMatrixf`, `glGetFloatv`,
  `glPushMatrix`, `glPopMatrix`, `gluPerspective`) are library code; they are
  modelled after the OpenGL 1.x reference pages in namespace `OpenGL`.
* Sine and cosine of an angle in degrees are passed in as a `Trig K` record.
-/

/-! ## OpenGL matrix state -/

namespace OpenGL

/-- A 4x4 matrix in OpenGL storage: sixteen scalars, column after column. -/
abbrev Mat16 (K : Type) := Fin 16 → K

/-- Position of the entry in row `row` and column `col` inside a `Mat16`. -/
def idx (row col : Fin 4) : Fin 16 := ⟨col.val * 4 + row.val, by omega⟩

/-- Row of the entry stored at position `i`. -/
def rowOf (i : Fin 16) : Fin 4 := ⟨i.val % 4, by omega⟩

/-- Column of the entry stored at position `i`. -/
def colOf (i : Fin 16) : Fin 4 := ⟨i.val / 4, by omega⟩

/-- The mathematical matrix a `Mat16` stands for. -/
def toMatrix {K : Type} (M : Mat16 K) : Matrix (Fin 4) (Fin 4) K :=
  Matrix.of fun r c => M (idx r c)

/-- Cosine and sine of an angle given in degrees. -/
structure Trig (K : Type) where
  cos : K → K
  sin : K → K

/-- The two matrix stacks the programs touch. -/
inductive MatrixMode where
  | modelview
  | projection
  deriving DecidableEq, Repr

/-- The part of the OpenGL context that the matrix calls read and write: the
matrix mode, and for each mode the current matrix with the saved matrices
below it. -/
structure Context (K : Type) where
  matrixMode : MatrixMode
  modelview : Mat16 K
  modelviewStack : List (Mat16 K)
  projection : Mat16 K
  projectionStack : List (Mat16 K)

variable {K : Type}

/-- The current matrix of the selected mode. -/
def Context.current (ctx : Context K) : Mat16 K :=
  match ctx.matrixMode with
  | .modelview => ctx.modelview
  | .projection => ctx.projection

/-- Replace the current matrix of the selected mode. -/
def Context.setCurrent (ctx : Context K) (M : Mat16 K) : Context K :=
  match ctx.matrixMode with
  | .modelview => { ctx with modelview := M }
  | .projection => { ctx with projection := M }

/-- The call `glMatrixMode(mode)`. -/
def glMatrixMode (mode : MatrixMode) (ctx : Context K) : Context K :=
  { ctx with matrixMode := mode }

section Ring
variable [Field K]

/-- The identity matrix, as `glLoadIdentity` loads it. -/
def identity : Mat16 K :=
  ![1, 0, 0, 0,
    0, 1, 0, 0,
    0, 0, 1, 0,
    0, 0, 0, 1]

/-- The product `C · M` of two matrices in OpenGL storage. -/
def mult (C M : Mat16 K) : Mat16 K := fun i =>
  C (idx (rowOf i) 0) * M (idx 0 (colOf i)) +
  C (idx (rowOf i) 1) * M (idx 1 (colOf i)) +
  C (idx (rowOf i) 2) * M (idx 2 (colOf i)) +
  C (idx (rowOf i) 3) * M (idx 3 (colOf i))

/-- The matrix of `glRotatef(angle, x, y, z)` for an axis of unit length (every
call in the programs passes a coordinate axis, for which the normalisation
OpenGL applies to the axis changes nothing). -/
def rotation (T : Trig K) (angle x y z : K) : Mat16 K :=
  let c := T.cos angle
  let s := T.sin angle
  ![x * x * (1 - c) + c,     y * x * (1 - c) + z * s, x * z * (1 - c) - y * s, 0,
    x * y * (1 - c) - z * s, y * y * (1 - c) + c,     y * z * (1 - c) + x * s, 0,
    x * z * (1 - c) + y * s, y * z * (1 - c) - x * s, z * z * (1 - c) + c,     0,
    0,                       0,                       0,                       1]

/-- The matrix of `glTranslatef(x, y, z)`. -/
def translation (x y z : K) : Mat16 K :=
  ![1, 0, 0, 0,
    0, 1, 0, 0,
    0, 0, 1, 0,
    x, y, z, 1]

/-- The matrix of `gluPerspective(fovy, aspect, zNear, zFar)`. -/
def perspective (T : Trig K) (fovy aspect zNear zFar : K) : Mat16 K :=
  let f := T.cos (fovy / 2) / T.sin (fovy / 2)
  ![f / aspect, 0, 0,                                  0,
    0,          f, 0,                                  0,
    0,          0, (zFar + zNear) / (zNear - zFar),    -1,
    0,          0, (2 * zFar * zNear) / (zNear - zFar), 0]

/-- The call `glLoadIdentity()`. -/
def glLoadIdentity (ctx : Context K) : Context K :=
  ctx.setCurrent identity

/-- The call `glLoadMatrixf(m)`. -/
def glLoadMatrixf (m : Mat16 K) (ctx : Context K) : Context K :=
  ctx.setCurrent m

/-- The call `glMultMatrixf(m)`: the current matrix `C` becomes `C · m`. -/
def glMultMatrixf (m : Mat16 K) (ctx : Context K) : Context K :=
  ctx.setCurrent (mult ctx.current m)

/-- The call `glRotatef(angle, x, y, z)`. -/
def glRotatef (T : Trig K) (angle x y z : K) (ctx : Context K) : Context K :=
  ctx.setCurrent (mult ctx.current (rotation T angle x y z))

/-- The call `glTranslatef(x, y, z)`. -/
def glTranslatef (x y z : K) (ctx : Context K) : Context K :=
  ctx.setCurrent (mult ctx.current (translation x y z))

/-- The call `gluPerspective(fovy, aspect, zNear, zFar)`. -/
def gluPerspective (T : Trig K) (fovy aspect zNear zFar : K) (ctx : Context K) :
    Context K :=
  ctx.setCurrent (mult ctx.current (perspective T fovy aspect zNear zFar))

end Ring

/-- The call `glPushMatrix()`: a copy of the current matrix is saved. -/
def glPushMatrix (ctx : Context K) : Context K :=
  match ctx.matrixMode with
  | .modelview => { ctx with modelviewStack := ctx.modelview :: ctx.modelviewStack }
  | .projection => { ctx with projectionStack := ctx.projection :: ctx.projectionStack }

/-- The call `glPopMatrix()`: the matrix saved last becomes current again; with
nothing saved the call raises an error flag and changes nothing. -/
def glPopMatrix (ctx : Context K) : Context K :=
  match ctx.matrixMode with
  | .modelview =>
    match ctx.modelviewStack with
    | [] => ctx
    | m :: rest => { ctx with modelview := m, modelviewStack := rest }
  | .projection =>
    match ctx.projectionStack with
    | [] => ctx
    | m :: rest => { ctx with projection := m, projectionStack := rest }

/-- The call `glGetFloatv(GL_MODELVIEW_MATRIX, out)`: the sixteen values read. -/
def glGetFloatv_MODELVIEW_MATRIX (ctx : Context K) : Mat16 K := ctx.modelview

/-- The call `glGetFloatv(GL_PROJECTION_MATRIX, out)`: the sixteen values read. -/
def glGetFloatv_PROJECTION_MATRIX (ctx : Context K) : Mat16 K := ctx.projection

end OpenGL

/-! ## The model-view demo: `matrixModelView/src/ModelGL.h` and `ModelGL.cpp` -/

namespace MatrixModelView

open OpenGL

/-- The constant `FOV_Y`. -/
def FOV_Y {K : Type} [Field K] : K := 60

/-- The constant `NEAR_PLANE`. -/
def NEAR_PLANE {K : Type} [Field K] : K := 1

/-- The constant `FAR_PLANE`. -/
def FAR_PLANE {K : Type} [Field K] : K := 100

/-- The constant `CAMERA_ANGLE_X`. -/
def CAMERA_ANGLE_X {K : Type} [Field K] : K := 45

/-- The constant `CAMERA_ANGLE_Y`. -/
def CAMERA_ANGLE_Y {K : Type} [Field K] : K := -45

/-- The constant `CAMERA_DISTANCE`. -/
def CAMERA_DISTANCE {K : Type} [Field K] : K := 25

/-- The data members of class `ModelGL` (ModelGL.h, lines 81-102). -/
structure ModelGL (K : Type) where
  windowWidth : Int
  windowHeight : Int
  windowSizeChanged : Bool
  drawModeChanged : Bool
  drawMode : Int
  mouseLeftDown : Bool
  mouseRightDown : Bool
  mouseX : Int
  mouseY : Int
  cameraPosition : Fin 3 → K
  cameraAngle : Fin 3 → K
  modelPosition : Fin 3 → K
  modelAngle : Fin 3 → K
  cameraAngleX : K
  cameraAngleY : K
  cameraDistance : K
  bgColor : Fin 4 → K
  matrixView : Mat16 K
  matrixModel : Mat16 K
  matrixModelView : Mat16 K

variable {K : Type} [Field K]

/-- The constructor `ModelGL::ModelGL()`. It leaves `mouseX` and `mouseY`
without a value; the values they happen to hold are the two arguments. -/
def ModelGL.new (mouseX0 mouseY0 : Int) : ModelGL K where
  windowWidth := 0
  windowHeight := 0
  windowSizeChanged := false
  drawModeChanged := false
  drawMode := 0
  mouseLeftDown := false
  mouseRightDown := false
  mouseX := mouseX0
  mouseY := mouseY0
  cameraPosition := fun _ => 0
  cameraAngle := fun _ => 0
  modelPosition := fun _ => 0
  modelAngle := fun _ => 0
  cameraAngleX := CAMERA_ANGLE_X
  cameraAngleY := CAMERA_ANGLE_Y
  cameraDistance := CAMERA_DISTANCE
  bgColor := fun _ => 0
  matrixView := fun _ => 0
  matrixModel := fun _ => 0
  matrixModelView := fun _ => 0

/-- The inline setter `setMouseLeft`. -/
def setMouseLeft (flag : Bool) (s : ModelGL K) : ModelGL K :=
  { s with mouseLeftDown := flag }

/-- The inline setter `setMouseRight`. -/
def setMouseRight (flag : Bool) (s : ModelGL K) : ModelGL K :=
  { s with mouseRightDown := flag }

/-- The inline setter `setMousePosition`. -/
def setMousePosition (x y : Int) (s : ModelGL K) : ModelGL K :=
  { s with mouseX := x, mouseY := y }

/-- The method `ModelGL::setWindowSize`. -/
def setWindowSize (width height : Int) (s : ModelGL K) : ModelGL K :=
  { s with windowWidth := width, windowHeight := height, windowSizeChanged := true }

/-- The method `ModelGL::setDrawMode`. -/
def setDrawMode (mode : Int) (s : ModelGL K) : ModelGL K :=
  if s.drawMode ≠ mode then { s with drawModeChanged := true, drawMode := mode } else s

/-- The method `ModelGL::setViewMatrix`. -/
def setViewMatrix (x y z pitch heading roll : K) (s : ModelGL K) : ModelGL K :=
  { s with cameraPosition := ![x, y, z], cameraAngle := ![pitch, heading, roll] }

/-- The method `ModelGL::setModelMatrix`. -/
def setModelMatrix (x y z rx ry rz : K) (s : ModelGL K) : ModelGL K :=
  { s with modelPosition := ![x, y, z], modelAngle := ![rx, ry, rz] }

/-- The inline setters `setCameraX`, `setCameraY`, `setCameraZ` (index 0, 1, 2). -/
def setCameraPos (i : Fin 3) (v : K) (s : ModelGL K) : ModelGL K :=
  { s with cameraPosition := Function.update s.cameraPosition i v }

/-- The inline setters `setCameraAngleX`, `setCameraAngleY`, `setCameraAngleZ`. -/
def setCameraAng (i : Fin 3) (v : K) (s : ModelGL K) : ModelGL K :=
  { s with cameraAngle := Function.update s.cameraAngle i v }

/-- The inline setters `setModelX`, `setModelY`, `setModelZ`. -/
def setModelPos (i : Fin 3) (v : K) (s : ModelGL K) : ModelGL K :=
  { s with modelPosition := Function.update s.modelPosition i v }

/-- The inline setters `setModelAngleX`, `setModelAngleY`, `setModelAngleZ`. -/
def setModelAng (i : Fin 3) (v : K) (s : ModelGL K) : ModelGL K :=
  { s with modelAngle := Function.update s.modelAngle i v }

/-- The method `ModelGL::rotateCamera`. -/
def rotateCamera (x y : Int) (s : ModelGL K) : ModelGL K :=
  if s.mouseLeftDown then
    { s with
      cameraAngleY := s.cameraAngleY + ((x - s.mouseX : Int) : K)
      cameraAngleX := s.cameraAngleX + ((y - s.mouseY : Int) : K)
      mouseX := x
      mouseY := y }
  else s

/-- The method `ModelGL::zoomCamera`; `0.05f` is the fraction 5/100. -/
def zoomCamera (delta : Int) (s : ModelGL K) : ModelGL K :=
  if s.mouseRightDown then
    { s with
      cameraDistance := s.cameraDistance + ((delta - s.mouseY : Int) : K) * (5 / 100)
      mouseY := delta }
  else s

/-- The method `ModelGL::setViewport`; `glViewport` does not touch a matrix. -/
def setViewport (T : Trig K) (_x _y w h : Int) (ctx : Context K) : Context K :=
  let ctx := glMatrixMode .projection ctx
  let ctx := glLoadIdentity ctx
  let ctx := gluPerspective T FOV_Y ((w : K) / (h : K)) NEAR_PLANE FAR_PLANE ctx
  let ctx := glMatrixMode .modelview ctx
  glLoadIdentity ctx

/-- The method `ModelGL::setViewportSub`; `glViewport` and `glScissor` do not
touch a matrix. -/
def setViewportSub (T : Trig K) (_x _y width height : Int) (nearPlane farPlane : K)
    (ctx : Context K) : Context K :=
  let ctx := glMatrixMode .projection ctx
  let ctx := glLoadIdentity ctx
  let ctx := gluPerspective T FOV_Y ((width : K) / (height : K)) nearPlane farPlane ctx
  let ctx := glMatrixMode .modelview ctx
  glLoadIdentity ctx

/-- The method `ModelGL::drawSub1`. The calls that clear buffers and emit
geometry (`glClearColor`, `glClear`, `drawGrid`, `drawAxis`, `drawTeapot`) leave
the matrix state alone and are not listed. -/
def drawSub1 (T : Trig K) (s : ModelGL K) (ctx : Context K) : ModelGL K × Context K :=
  let ctx := setViewportSub T 0 (Int.tdiv s.windowHeight 2) s.windowWidth
    (Int.tdiv s.windowHeight 2) 1 10 ctx
  let ctx := glPushMatrix ctx
  let ctx := glLoadIdentity ctx
  let ctx := glRotatef T (-s.cameraAngle 2) 0 0 1 ctx
  let ctx := glRotatef T (-s.cameraAngle 1) 0 1 0 ctx
  let ctx := glRotatef T (-s.cameraAngle 0) 1 0 0 ctx
  let ctx := glTranslatef (-s.cameraPosition 0) (-s.cameraPosition 1) (-s.cameraPosition 2) ctx
  let s := { s with matrixView := glGetFloatv_MODELVIEW_MATRIX ctx }
  let ctx := glLoadIdentity ctx
  let ctx := glTranslatef (s.modelPosition 0) (s.modelPosition 1) (s.modelPosition 2) ctx
  let ctx := glRotatef T (s.modelAngle 0) 1 0 0 ctx
  let ctx := glRotatef T (s.modelAngle 1) 0 1 0 ctx
  let ctx := glRotatef T (s.modelAngle 2) 0 0 1 ctx
  let s := { s with matrixModel := glGetFloatv_MODELVIEW_MATRIX ctx }
  let ctx := glLoadMatrixf s.matrixView ctx
  let ctx := glMultMatrixf s.matrixModel ctx
  let s := { s with matrixModelView := glGetFloatv_MODELVIEW_MATRIX ctx }
  let ctx := glPopMatrix ctx
  (s, ctx)

/-- The method `ModelGL::drawSub2`, reduced in the same way to its matrix
calls (`drawCamera` and `drawFrustum` emit geometry only). -/
def drawSub2 (T : Trig K) (s : ModelGL K) (ctx : Context K) : ModelGL K × Context K :=
  let ctx := setViewportSub T 0 0 s.windowWidth (Int.tdiv s.windowHeight 2)
    NEAR_PLANE FAR_PLANE ctx
  let ctx := glPushMatrix ctx
  let ctx := glTranslatef 0 0 (-s.cameraDistance) ctx
  let ctx := glRotatef T s.cameraAngleX 1 0 0 ctx
  let ctx := glRotatef T s.cameraAngleY 0 1 0 ctx
  let ctx := glPushMatrix ctx
  let ctx := glTranslatef (s.modelPosition 0) (s.modelPosition 1) (s.modelPosition 2) ctx
  let ctx := glRotatef T (s.modelAngle 0) 1 0 0 ctx
  let ctx := glRotatef T (s.modelAngle 1) 0 1 0 ctx
  let ctx := glRotatef T (s.modelAngle 2) 0 0 1 ctx
  let ctx := glPopMatrix ctx
  let ctx := glPushMatrix ctx
  let ctx := glTranslatef (s.cameraPosition 0) (s.cameraPosition 1) (s.cameraPosition 2) ctx
  let ctx := glRotatef T (s.cameraAngle 0) 1 0 0 ctx
  let ctx := glRotatef T (s.cameraAngle 1) 0 1 0 ctx
  let ctx := glRotatef T (s.cameraAngle 2) 0 0 1 ctx
  let ctx := glPopMatrix ctx
  let ctx := glPopMatrix ctx
  (s, ctx)

/-- The method `ModelGL::draw`. The polygon-mode and enable/disable calls of
the draw-mode branch do not touch a matrix and are not listed. -/
def draw (T : Trig K) (s : ModelGL K) (ctx : Context K) : ModelGL K × Context K :=
  let (s, ctx) := drawSub1 T s ctx
  let (s, ctx) := drawSub2 T s ctx
  let (s, ctx) :=
    if s.windowSizeChanged then
      ({ s with windowSizeChanged := false }, setViewport T 0 0 s.windowWidth s.windowHeight ctx)
    else (s, ctx)
  let s := if s.drawModeChanged then { s with drawModeChanged := false } else s
  (s, ctx)

/-- The sixteen assignments `m[0] = src[0]; m[1] = src[4]; ... m[15] = src[15]`
that make up the body of each of the getters `getViewMatrix`, `getModelMatrix`,
`getModelViewMatrix` (and `getProjectionMatrix` of the projection demo); the
getters differ only in the member array `src` they read. -/
def writeTransposed {K : Type} (src m : Mat16 K) : Mat16 K :=
  let m := Function.update m 0 (src 0)
  let m := Function.update m 1 (src 4)
  let m := Function.update m 2 (src 8)
  let m := Function.update m 3 (src 12)
  let m := Function.update m 4 (src 1)
  let m := Function.update m 5 (src 5)
  let m := Function.update m 6 (src 9)
  let m := Function.update m 7 (src 13)
  let m := Function.update m 8 (src 2)
  let m := Function.update m 9 (src 6)
  let m := Function.update m 10 (src 10)
  let m := Function.update m 11 (src 14)
  let m := Function.update m 12 (src 3)
  let m := Function.update m 13 (src 7)
  let m := Function.update m 14 (src 11)
  let m := Function.update m 15 (src 15)
  m

/-- The method `ModelGL::getViewMatrix(float* m)`: the object afterwards and
the contents of the caller's array `m` afterwards. -/
def getViewMatrix (s : ModelGL K) (m : Mat16 K) : ModelGL K × Mat16 K :=
  (s, writeTransposed s.matrixView m)

/-- The method `ModelGL::getModelMatrix(float* m)`. -/
def getModelMatrix (s : ModelGL K) (m : Mat16 K) : ModelGL K × Mat16 K :=
  (s, writeTransposed s.matrixModel m)

/-- The method `ModelGL::getModelViewMatrix(float* m)`. -/
def getModelViewMatrix (s : ModelGL K) (m : Mat16 K) : ModelGL K × Mat16 K :=
  (s, writeTransposed s.matrixModelView m)

/-- The calls a host can make on a `ModelGL` object between and including
frames: the frame itself, the pose setters, and the calls the mouse handlers of
the controller are made of. -/
inductive Op (K : Type) where
  | draw
  | setViewMatrix (x y z pitch heading roll : K)
  | setModelMatrix (x y z rx ry rz : K)
  | setCameraPos (i : Fin 3) (v : K)
  | setCameraAng (i : Fin 3) (v : K)
  | setModelPos (i : Fin 3) (v : K)
  | setModelAng (i : Fin 3) (v : K)
  | setMouseLeft (flag : Bool)
  | setMouseRight (flag : Bool)
  | setMousePosition (x y : Int)
  | rotateCamera (x y : Int)
  | zoomCamera (delta : Int)
  | setWindowSize (width height : Int)
  | setDrawMode (mode : Int)

/-- One call on the object, together with the OpenGL context it draws into. -/
def step (T : Trig K) (w : ModelGL K × Context K) : Op K → ModelGL K × Context K
  | .draw => draw T w.1 w.2
  | .setViewMatrix x y z pitch heading roll => (setViewMatrix x y z pitch heading roll w.1, w.2)
  | .setModelMatrix x y z rx ry rz => (setModelMatrix x y z rx ry rz w.1, w.2)
  | .setCameraPos i v => (setCameraPos i v w.1, w.2)
  | .setCameraAng i v => (setCameraAng i v w.1, w.2)
  | .setModelPos i v => (setModelPos i v w.1, w.2)
  | .setModelAng i v => (setModelAng i v w.1, w.2)
  | .setMouseLeft flag => (setMouseLeft flag w.1, w.2)
  | .setMouseRight flag => (setMouseRight flag w.1, w.2)
  | .setMousePosition x y => (setMousePosition x y w.1, w.2)
  | .rotateCamera x y => (rotateCamera x y w.1, w.2)
  | .zoomCamera delta => (zoomCamera delta w.1, w.2)
  | .setWindowSize width height => (setWindowSize width height w.1, w.2)
  | .setDrawMode mode => (setDrawMode mode w.1, w.2)

end MatrixModelView

/-! ## The standard transforms the specification names -/

namespace Spec

open OpenGL

variable {K : Type} [Field K]

/-- Rotation about the X axis by an angle in degrees. -/
def Rx (T : Trig K) (a : K) : Matrix (Fin 4) (Fin 4) K :=
  !![1, 0,       0,        0;
     0, T.cos a, -T.sin a, 0;
     0, T.sin a, T.cos a,  0;
     0, 0,       0,        1]

/-- Rotation about the Y axis by an angle in degrees. -/
def Ry (T : Trig K) (a : K) : Matrix (Fin 4) (Fin 4) K :=
  !![T.cos a,  0, T.sin a, 0;
     0,        1, 0,       0;
     -T.sin a, 0, T.cos a, 0;
     0,        0, 0,       1]

/-- Rotation about the Z axis by an angle in degrees. -/
def Rz (T : Trig K) (a : K) : Matrix (Fin 4) (Fin 4) K :=
  !![T.cos a, -T.sin a, 0, 0;
     T.sin a, T.cos a,  0, 0;
     0,       0,        1, 0;
     0,       0,        0, 1]

/-- Translation by `(x, y, z)`. -/
def Tr (x y z : K) : Matrix (Fin 4) (Fin 4) K :=
  !![1, 0, 0, x;
     0, 1, 0, y;
     0, 0, 1, z;
     0, 0, 0, 1]

end Spec

/-! ## The vector type of `Vectors.h` -/

namespace Vectors

/-- Modelled from the spec: header `Vectors.h` is not part of the sources; the
specification describes its `Vector3` as a 3D vector type with cross product,
subtraction and normalization. -/
structure Vector3 (K : Type) where
  x : K
  y : K
  z : K

namespace Vector3

variable {K : Type} [Field K]

/-- Modelled from the spec: `Vector3::operator-` of the absent `Vectors.h`,
the component-wise difference. -/
def sub (a b : Vector3 K) : Vector3 K := ⟨a.x - b.x, a.y - b.y, a.z - b.z⟩

/-- Modelled from the spec: the cross product, which the specification names as
the product of two edge vectors that gives a face normal. -/
def cross (a b : Vector3 K) : Vector3 K :=
  ⟨a.y * b.z - a.z * b.y, a.z * b.x - a.x * b.z, a.x * b.y - a.y * b.x⟩

/-- The Euclidean length, for a given square-root function. -/
def length (sqrt : K → K) (a : Vector3 K) : K :=
  sqrt (a.x * a.x + a.y * a.y + a.z * a.z)

/-- Modelled from the spec: the number by which `Vector3::normalize` of the
absent `Vectors.h` divides the components, the Euclidean length. For a vector
of length zero there is none: the specification documents the geometry of
degenerate bounds as NaN-free, so such a vector is not divided. -/
def normalizeDivisor [DecidableEq K] (sqrt : K → K) (a : Vector3 K) : Option K :=
  if length sqrt a = 0 then none else some (length sqrt a)

/-- Modelled from the spec: `Vector3::normalize` of the absent `Vectors.h`,
which scales a vector to unit length: every component is divided by the
Euclidean length. A vector of length zero is left as it is. -/
def normalize [DecidableEq K] (sqrt : K → K) (a : Vector3 K) : Vector3 K :=
  match normalizeDivisor sqrt a with
  | none => a
  | some d => ⟨a.x / d, a.y / d, a.z / d⟩

/-- The dot product (used to state which way a normal points). -/
def dot (a b : Vector3 K) : K := a.x * b.x + a.y * b.y + a.z * b.z

instance : Sub (Vector3 K) := ⟨sub⟩

/-- Modelled from the spec: `Vector3::operator*` applied to two vectors is read
as the cross product the specification names. -/
instance : Mul (Vector3 K) := ⟨cross⟩

end Vector3

end Vectors

/-! ## The projection demo: `matrixProjection/src/ModelGL.cpp` -/

namespace MatrixProjection

open OpenGL Vectors

/-- The data members of class `ModelGL` that `ModelGL.cpp` of the projection
demo reads and writes (its header is not part of the sources). -/
structure ModelGL (K : Type) where
  windowWidth : Int
  windowHeight : Int
  windowSizeChanged : Bool
  drawModeChanged : Bool
  drawMode : Int
  mouseLeftDown : Bool
  mouseRightDown : Bool
  mouseX : Int
  mouseY : Int
  cameraAngleX : K
  cameraAngleY : K
  cameraDistance : K
  bgColor : Fin 4 → K
  projectionLeft : K
  projectionRight : K
  projectionBottom : K
  projectionTop : K
  projectionNear : K
  projectionFar : K
  projectionMode : Int
  matrixProjection : Mat16 K
  frustumVertices : Fin 8 → Vector3 K
  frustumNormals : Fin 6 → Vector3 K

variable {K : Type} [Field K]

/-- The constructor `ModelGL::ModelGL()` of the projection demo. It gives no
value to `mouseX` and `mouseY`, and the two `Vector3` arrays get whatever the
default constructor of the absent `Vectors.h` leaves in them; these initial
contents are the arguments. -/
def ModelGL.new (mouseX0 mouseY0 : Int) (vertices0 : Fin 8 → Vector3 K)
    (normals0 : Fin 6 → Vector3 K) : ModelGL K where
  windowWidth := 0
  windowHeight := 0
  windowSizeChanged := false
  drawModeChanged := false
  drawMode := 0
  mouseLeftDown := false
  mouseRightDown := false
  mouseX := mouseX0
  mouseY := mouseY0
  cameraAngleX := 45
  cameraAngleY := -45
  cameraDistance := 25
  bgColor := fun _ => 0
  projectionLeft := -(5 / 10)
  projectionRight := 5 / 10
  projectionBottom := -(5 / 10)
  projectionTop := 5 / 10
  projectionNear := 1
  projectionFar := 10
  projectionMode := 0
  matrixProjection := fun _ => 0
  frustumVertices := vertices0
  frustumNormals := normals0

/-- The method `ModelGL::rotateCamera` of the projection demo. -/
def rotateCamera (x y : Int) (s : ModelGL K) : ModelGL K :=
  if s.mouseLeftDown then
    { s with
      cameraAngleY := s.cameraAngleY + ((x - s.mouseX : Int) : K)
      cameraAngleX := s.cameraAngleX + ((y - s.mouseY : Int) : K)
      mouseX := x
      mouseY := y }
  else s

/-- The method `ModelGL::zoomCamera` of the projection demo. -/
def zoomCamera (delta : Int) (s : ModelGL K) : ModelGL K :=
  if s.mouseRightDown then
    { s with
      cameraDistance := s.cameraDistance + ((delta - s.mouseY : Int) : K) * (5 / 100)
      mouseY := delta }
  else s

/-- The method `ModelGL::setProjection`. -/
def setProjection (l r b t n f : K) (s : ModelGL K) : ModelGL K :=
  { s with
    projectionLeft := l, projectionRight := r, projectionBottom := b,
    projectionTop := t, projectionNear := n, projectionFar := f }

/-- The method `ModelGL::getProjectionMatrix(float* m)`: the object afterwards
and the contents of the caller's array `m` afterwards. -/
def getProjectionMatrix (s : ModelGL K) (m : Mat16 K) : ModelGL K × Mat16 K :=
  (s, MatrixModelView.writeTransposed s.matrixProjection m)

/-- The method `ModelGL::computeFrustumVertices`; `sqrt` is the square root
that `normalize` uses. -/
def computeFrustumVertices [DecidableEq K] (sqrt : K → K) (l r b t n f : K)
    (s : ModelGL K) : ModelGL K :=
  let ratio : K := if s.projectionMode = 0 then f / n else 1
  let farLeft := l * ratio
  let farRight := r * ratio
  let farBottom := b * ratio
  let farTop := t * ratio
  let frustumVertices : Fin 8 → Vector3 K :=
    ![⟨r, t, -n⟩,
      ⟨l, t, -n⟩,
      ⟨l, b, -n⟩,
      ⟨r, b, -n⟩,
      ⟨farRight, farTop, -f⟩,
      ⟨farLeft, farTop, -f⟩,
      ⟨farLeft, farBottom, -f⟩,
      ⟨farRight, farBottom, -f⟩]
  let frustumNormals : Fin 6 → Vector3 K :=
    ![((frustumVertices 5 - frustumVertices 1) * (frustumVertices 2 - frustumVertices 1)).normalize sqrt,
      ((frustumVertices 3 - frustumVertices 0) * (frustumVertices 4 - frustumVertices 0)).normalize sqrt,
      ((frustumVertices 6 - frustumVertices 2) * (frustumVertices 3 - frustumVertices 2)).normalize sqrt,
      ((frustumVertices 4 - frustumVertices 0) * (frustumVertices 1 - frustumVertices 0)).normalize sqrt,
      ((frustumVertices 1 - frustumVertices 0) * (frustumVertices 3 - frustumVertices 0)).normalize sqrt,
      ((frustumVertices 7 - frustumVertices 4) * (frustumVertices 5 - frustumVertices 4)).normalize sqrt]
  { s with frustumVertices := frustumVertices, frustumNormals := frustumNormals }

/-- The six products of two edge vectors that `computeFrustumVertices` forms
and then normalises (ModelGL.cpp, lines 883-898), for given vertices. -/
def edgeProducts (v : Fin 8 → Vector3 K) : Fin 6 → Vector3 K :=
  ![(v 5 - v 1) * (v 2 - v 1),
    (v 3 - v 0) * (v 4 - v 0),
    (v 6 - v 2) * (v 3 - v 2),
    (v 4 - v 0) * (v 1 - v 0),
    (v 1 - v 0) * (v 3 - v 0),
    (v 7 - v 4) * (v 5 - v 4)]

/-- The vertex that the two edge vectors of face `k` share in
`computeFrustumVertices` (faces: 0 left, 1 right, 2 bottom, 3 top, 4 near,
5 far). -/
def sharedVertex : Fin 6 → Fin 8 := ![1, 0, 2, 0, 0, 4]

end MatrixProjection

/-! ## The eight vertices built inline by `drawFrustum` of the model-view demo -/

namespace MatrixModelView

variable {K : Type} [Field K]

/-- The local array `vertices[8][3]` that `ModelGL::drawFrustum` fills
(ModelGL.cpp, lines 433-456); `tangent` is the value of
`tanf(fovY/2 * DEG2RAD)`. -/
def drawFrustumVertices (tangent aspectRatio nearPlane farPlane : K) : Fin 8 → Fin 3 → K :=
  let nearHeight := nearPlane * tangent
  let nearWidth := nearHeight * aspectRatio
  let farHeight := farPlane * tangent
  let farWidth := farHeight * aspectRatio
  ![![nearWidth, nearHeight, -nearPlane],
    ![-nearWidth, nearHeight, -nearPlane],
    ![-nearWidth, -nearHeight, -nearPlane],
    ![nearWidth, -nearHeight, -nearPlane],
    ![farWidth, farHeight, -farPlane],
    ![-farWidth, farHeight, -farPlane],
    ![-farWidth, -farHeight, -farPlane],
    ![farWidth, -farHeight, -farPlane]]

end MatrixModelView

/-! ## The mouse handlers of `matrixProjection/src/ControllerGL.cpp` -/

namespace Win

/-- The value of the Windows constant `MK_LBUTTON`. -/
def MK_LBUTTON : Nat := 1

/-- The value of the Windows constant `MK_RBUTTON`. -/
def MK_RBUTTON : Nat := 2

/-- The methods of the model object that the mouse handlers call through the
pointer `model`. -/
structure ModelCalls (M : Type) where
  setMousePosition : Int → Int → M → M
  setMouseLeft : Bool → M → M
  setMouseRight : Bool → M → M
  rotateCamera : Int → Int → M → M
  zoomCamera : Int → M → M

namespace ControllerGL

variable {M : Type}

/-- The handler `ControllerGL::lButtonDown`: the model afterwards and the value
returned. -/
def lButtonDown (c : ModelCalls M) (state : Nat) (x y : Int) (model : M) : M × Int :=
  let model := c.setMousePosition x y model
  let model := if state = MK_LBUTTON then c.setMouseLeft true model else model
  (model, 0)

/-- The handler `ControllerGL::lButtonUp`. -/
def lButtonUp (c : ModelCalls M) (_state : Nat) (x y : Int) (model : M) : M × Int :=
  let model := c.setMousePosition x y model
  let model := c.setMouseLeft false model
  (model, 0)

/-- The handler `ControllerGL::rButtonDown`. -/
def rButtonDown (c : ModelCalls M) (state : Nat) (x y : Int) (model : M) : M × Int :=
  let model := c.setMousePosition x y model
  let model := if state = MK_RBUTTON then c.setMouseRight true model else model
  (model, 0)

/-- The handler `ControllerGL::rButtonUp`. -/
def rButtonUp (c : ModelCalls M) (_state : Nat) (x y : Int) (model : M) : M × Int :=
  let model := c.setMousePosition x y model
  let model := c.setMouseRight false model
  (model, 0)

/-- The handler `ControllerGL::mouseMove`. -/
def mouseMove (c : ModelCalls M) (state : Nat) (x y : Int) (model : M) : M × Int :=
  let model := if state = MK_LBUTTON then c.rotateCamera x y model else model
  let model := if state = MK_RBUTTON then c.zoomCamera y model else model
  (model, 0)

end ControllerGL

end Win

namespace MatrixModelView

/-- The model object of the model-view demo as the controller sees it. -/
def modelCalls {K : Type} [Field K] : Win.ModelCalls (ModelGL K) where
  setMousePosition := setMousePosition
  setMouseLeft := setMouseLeft
  setMouseRight := setMouseRight
  rotateCamera := rotateCamera
  zoomCamera := zoomCamera

end MatrixModelView

namespace MatrixModelView

variable {K : Type} [Field K]

/-- The inline getter `getCameraX`. -/
def getCameraX (s : ModelGL K) : K := s.cameraPosition 0

/-- The inline getter `getCameraY`. -/
def getCameraY (s : ModelGL K) : K := s.cameraPosition 1

/-- The inline getter `getCameraZ`. -/
def getCameraZ (s : ModelGL K) : K := s.cameraPosition 2

/-- The inline getter `getCameraAngleX`. -/
def getCameraAngleX (s : ModelGL K) : K := s.cameraAngle 0

/-- The inline getter `getCameraAngleY`. -/
def getCameraAngleY (s : ModelGL K) : K := s.cameraAngle 1

/-- The inline getter `getCameraAngleZ`. -/
def getCameraAngleZ (s : ModelGL K) : K := s.cameraAngle 2

/-- The inline getter `getModelX`. -/
def getModelX (s : ModelGL K) : K := s.modelPosition 0

/-- The inline getter `getModelY`. -/
def getModelY (s : ModelGL K) : K := s.modelPosition 1

/-- The inline getter `getModelZ`. -/
def getModelZ (s : ModelGL K) : K := s.modelPosition 2

/-- The inline getter `getModelAngleX`. -/
def getModelAngleX (s : ModelGL K) : K := s.modelAngle 0

/-- The inline getter `getModelAngleY`. -/
def getModelAngleY (s : ModelGL K) : K := s.modelAngle 1

/-- The inline getter `getModelAngleZ`. -/
def getModelAngleZ (s : ModelGL K) : K := s.modelAngle 2

end MatrixModelView

namespace MatrixModelView

open OpenGL

variable {K : Type} [Field K]

/-- The four calls of `ModelGL::drawSub2` that place the camera glyph and its
frustum in the world (ModelGL.cpp, lines 331-334): `glTranslatef` by the camera
position, then `glRotatef` about X, Y, Z by the camera angles. -/
def placeCamera (T : Trig K) (s : ModelGL K) (ctx : Context K) : Context K :=
  let ctx := glTranslatef (s.cameraPosition 0) (s.cameraPosition 1) (s.cameraPosition 2) ctx
  let ctx := glRotatef T (s.cameraAngle 0) 1 0 0 ctx
  let ctx := glRotatef T (s.cameraAngle 1) 0 1 0 ctx
  glRotatef T (s.cameraAngle 2) 0 0 1 ctx

/-- The `height` argument `windowHeight/2` that `drawSub1` and `drawSub2` pass to
`setViewportSub`, which divides `(float)(width)` by it; C++ integer division
truncates toward zero. -/
def subViewportHeight (s : ModelGL K) : Int := Int.tdiv s.windowHeight 2

end MatrixModelView

namespace MatrixProjection

open OpenGL Vectors

variable {K : Type} [Field K]

end MatrixProjection

namespace Win

/-- The data members of class `ControllerGL` that `create` and the render loop
use (ControllerGL.h, lines 47-51); a handle is a number, 0 for none. The
pointers `model` and `view` are passed to the handlers instead. -/
structure ControllerGL where
  threadHandle : Nat
  threadId : Nat
  loopFlag : Bool

namespace ControllerGL

/-- The constructor `ControllerGL::ControllerGL(model, view)`. -/
def new : ControllerGL := ⟨0, 0, false⟩

/-- The handler `ControllerGL::create` (for `WM_CREATE`): the controller
afterwards and the value returned. `createContext` is the result of
`view->createContext(handle, 32, 24, 8)`; `newThread` is the handle returned by
`_beginthreadex` (0 when no thread could be started) together with the thread
id it stored. The calls of `Win::log` only write to the log. -/
def create (createContext : Bool) (newThread : Nat × Nat) (c : ControllerGL) :
    ControllerGL × Int :=
  if !createContext then
    (c, -1)
  else
    let c := { c with threadHandle := newThread.1, threadId := newThread.2 }
    let c := if c.threadHandle ≠ 0 then { c with loopFlag := true } else c
    (c, 0)

end ControllerGL

end Win

namespace OpenGL

/-- A cosine/sine pair over the rationals for concrete instances: the rational
parametrisation of the circle, with `cos 0 = 1`, `sin 0 = 0`,
`cos² + sin² = 1`, `cos (-a) = cos a` and `sin (-a) = -sin a`. -/
def ratTrig : Trig ℚ where
  cos := fun a => (1 - a * a) / (1 + a * a)
  sin := fun a => 2 * a / (1 + a * a)

end OpenGL

namespace MatrixModelView

/-- The relation between the three stored matrices: `matrixModelView` stands
for the product of the matrices `matrixView` and `matrixModel` stand for. -/
def ModelViewLaw {K : Type} [Field K] (s : ModelGL K) : Prop :=
  OpenGL.toMatrix s.matrixModelView = OpenGL.toMatrix s.matrixView * OpenGL.toMatrix s.matrixModel

end MatrixModelView

/-! # Theorems -/

/-! ## Lemmas on the OpenGL matrix model -/

namespace OpenGL

variable {K : Type} [Field K]

theorem toMatrix_identity : toMatrix (identity : Mat16 K) = 1 := by
  ext r c
  fin_cases r <;> fin_cases c <;> simp [toMatrix, identity, idx] <;> rfl

theorem toMatrix_mult (A B : Mat16 K) : toMatrix (mult A B) = toMatrix A * toMatrix B := by
  ext r c
  fin_cases r <;> fin_cases c <;>
    simp [toMatrix, mult, idx, rowOf, colOf, Matrix.mul_apply, Fin.sum_univ_four] <;> rfl

theorem toMatrix_rotation_x (T : Trig K) (a : K) :
    toMatrix (rotation T a 1 0 0) = Spec.Rx T a := by
  ext r c
  fin_cases r <;> fin_cases c <;> simp [toMatrix, rotation, idx, Spec.Rx] <;> rfl

end OpenGL

namespace OpenGL

variable {K : Type} [Field K]

theorem toMatrix_rotation_y (T : Trig K) (a : K) :
    toMatrix (rotation T a 0 1 0) = Spec.Ry T a := by
  ext r c
  fin_cases r <;> fin_cases c <;> simp [toMatrix, rotation, idx, Spec.Ry] <;> rfl

theorem toMatrix_rotation_z (T : Trig K) (a : K) :
    toMatrix (rotation T a 0 0 1) = Spec.Rz T a := by
  ext r c
  fin_cases r <;> fin_cases c <;> simp [toMatrix, rotation, idx, Spec.Rz] <;> rfl

theorem toMatrix_translation (x y z : K) :
    toMatrix (translation x y z) = Spec.Tr x y z := by
  ext r c
  fin_cases r <;> fin_cases c <;> simp [toMatrix, translation, idx, Spec.Tr] <;> rfl

end OpenGL

namespace OpenGL

variable {K : Type} [Field K]

omit [Field K] in
theorem matrixMode_setCurrent (ctx : Context K) (M : Mat16 K) :
    (ctx.setCurrent M).matrixMode = ctx.matrixMode := by
  unfold Context.setCurrent
  cases h : ctx.matrixMode <;> simp [h]

omit [Field K] in
theorem modelview_setCurrent (ctx : Context K) (M : Mat16 K)
    (h : ctx.matrixMode = .modelview) : (ctx.setCurrent M).modelview = M := by
  unfold Context.setCurrent
  simp [h]

omit [Field K] in
theorem current_of_modelview (ctx : Context K) (h : ctx.matrixMode = .modelview) :
    ctx.current = ctx.modelview := by
  unfold Context.current
  simp [h]

theorem matrixMode_glLoadIdentity (ctx : Context K) :
    (glLoadIdentity ctx).matrixMode = ctx.matrixMode := matrixMode_setCurrent _ _

omit [Field K] in
theorem matrixMode_glLoadMatrixf (m : Mat16 K) (ctx : Context K) :
    (glLoadMatrixf m ctx).matrixMode = ctx.matrixMode := matrixMode_setCurrent _ _

theorem matrixMode_glMultMatrixf (m : Mat16 K) (ctx : Context K) :
    (glMultMatrixf m ctx).matrixMode = ctx.matrixMode := matrixMode_setCurrent _ _

theorem matrixMode_glRotatef (T : Trig K) (a x y z : K) (ctx : Context K) :
    (glRotatef T a x y z ctx).matrixMode = ctx.matrixMode := matrixMode_setCurrent _ _

theorem matrixMode_glTranslatef (x y z : K) (ctx : Context K) :
    (glTranslatef x y z ctx).matrixMode = ctx.matrixMode := matrixMode_setCurrent _ _

omit [Field K] in
theorem matrixMode_glPushMatrix (ctx : Context K) :
    (glPushMatrix ctx).matrixMode = ctx.matrixMode := by
  unfold glPushMatrix
  cases h : ctx.matrixMode <;> simp [h]

omit [Field K] in
theorem modelview_glPushMatrix (ctx : Context K) :
    (glPushMatrix ctx).modelview = ctx.modelview := by
  unfold glPushMatrix
  cases h : ctx.matrixMode <;> simp

theorem modelview_glLoadIdentity (ctx : Context K) (h : ctx.matrixMode = .modelview) :
    (glLoadIdentity ctx).modelview = identity := modelview_setCurrent _ _ h

omit [Field K] in
theorem modelview_glLoadMatrixf (m : Mat16 K) (ctx : Context K)
    (h : ctx.matrixMode = .modelview) : (glLoadMatrixf m ctx).modelview = m :=
  modelview_setCurrent _ _ h

theorem modelview_glMultMatrixf (m : Mat16 K) (ctx : Context K)
    (h : ctx.matrixMode = .modelview) :
    (glMultMatrixf m ctx).modelview = mult ctx.modelview m := by
  unfold glMultMatrixf
  rw [modelview_setCurrent _ _ h, current_of_modelview _ h]

theorem modelview_glRotatef (T : Trig K) (a x y z : K) (ctx : Context K)
    (h : ctx.matrixMode = .modelview) :
    (glRotatef T a x y z ctx).modelview = mult ctx.modelview (rotation T a x y z) := by
  unfold glRotatef
  rw [modelview_setCurrent _ _ h, current_of_modelview _ h]

theorem modelview_glTranslatef (x y z : K) (ctx : Context K)
    (h : ctx.matrixMode = .modelview) :
    (glTranslatef x y z ctx).modelview = mult ctx.modelview (translation x y z) := by
  unfold glTranslatef
  rw [modelview_setCurrent _ _ h, current_of_modelview _ h]

end OpenGL

namespace MatrixModelView

open OpenGL

variable {K : Type} [Field K]

theorem matrixMode_setViewportSub (T : Trig K) (x y w h : Int) (n f : K) (ctx : Context K) :
    (setViewportSub T x y w h n f ctx).matrixMode = .modelview := by
  simp [setViewportSub, matrixMode_glLoadIdentity, glMatrixMode]

/-- The three matrices `drawSub1` saves, written out. -/
theorem drawSub1_fst (T : Trig K) (s : ModelGL K) (ctx : Context K) :
    (drawSub1 T s ctx).1 =
      { s with
        matrixView :=
          mult (mult (mult (mult identity (rotation T (-s.cameraAngle 2) 0 0 1))
            (rotation T (-s.cameraAngle 1) 0 1 0)) (rotation T (-s.cameraAngle 0) 1 0 0))
            (translation (-s.cameraPosition 0) (-s.cameraPosition 1) (-s.cameraPosition 2))
        matrixModel :=
          mult (mult (mult (mult identity
            (translation (s.modelPosition 0) (s.modelPosition 1) (s.modelPosition 2)))
            (rotation T (s.modelAngle 0) 1 0 0)) (rotation T (s.modelAngle 1) 0 1 0))
            (rotation T (s.modelAngle 2) 0 0 1)
        matrixModelView :=
          mult
            (mult (mult (mult (mult identity (rotation T (-s.cameraAngle 2) 0 0 1))
              (rotation T (-s.cameraAngle 1) 0 1 0)) (rotation T (-s.cameraAngle 0) 1 0 0))
              (translation (-s.cameraPosition 0) (-s.cameraPosition 1) (-s.cameraPosition 2)))
            (mult (mult (mult (mult identity
              (translation (s.modelPosition 0) (s.modelPosition 1) (s.modelPosition 2)))
              (rotation T (s.modelAngle 0) 1 0 0)) (rotation T (s.modelAngle 1) 0 1 0))
              (rotation T (s.modelAngle 2) 0 0 1)) } := by
  have h1 := matrixMode_setViewportSub T 0 (Int.tdiv s.windowHeight 2) s.windowWidth
    (Int.tdiv s.windowHeight 2) 1 10 ctx
  simp [drawSub1, glGetFloatv_MODELVIEW_MATRIX, modelview_glLoadIdentity,
    modelview_glLoadMatrixf, modelview_glMultMatrixf, modelview_glRotatef,
    modelview_glTranslatef, matrixMode_glLoadIdentity, matrixMode_glLoadMatrixf,
    matrixMode_glMultMatrixf, matrixMode_glRotatef, matrixMode_glTranslatef,
    matrixMode_glPushMatrix, h1]

theorem drawSub2_fst (T : Trig K) (s : ModelGL K) (ctx : Context K) :
    (drawSub2 T s ctx).1 = s := rfl

end MatrixModelView

namespace MatrixModelView

open OpenGL

variable {K : Type} [Field K]

theorem draw_fst (T : Trig K) (s : ModelGL K) (ctx : Context K) :
    (draw T s ctx).1 =
      { (drawSub1 T s ctx).1 with windowSizeChanged := false, drawModeChanged := false } := by
  unfold draw
  simp only [drawSub2_fst]
  generalize (drawSub1 T s ctx).1 = s1
  cases s1 with
  | mk ww wh wsc dmc dm ml mr mx my cp ca mp ma ax ay cd bg mv mm mmv =>
    cases wsc <;> cases dmc <;> rfl

end MatrixModelView

namespace MatrixModelView

open OpenGL

variable {K : Type} [Field K]

theorem modelViewLaw_drawSub1 (T : Trig K) (s : ModelGL K) (ctx : Context K) :
    ModelViewLaw (drawSub1 T s ctx).1 := by
  unfold ModelViewLaw
  rw [drawSub1_fst]
  exact toMatrix_mult _ _

theorem modelViewLaw_draw (T : Trig K) (s : ModelGL K) (ctx : Context K) :
    ModelViewLaw (draw T s ctx).1 := by
  rw [draw_fst]
  exact modelViewLaw_drawSub1 T s ctx

theorem modelViewLaw_step (T : Trig K) (w : ModelGL K × Context K) (op : Op K)
    (h : ModelViewLaw w.1) : ModelViewLaw (step T w op).1 := by
  cases op with
  | draw => exact modelViewLaw_draw T w.1 w.2
  | setDrawMode mode =>
    simp only [step, setDrawMode]
    split_ifs <;> exact h
  | rotateCamera x y =>
    simp only [step, rotateCamera]
    split_ifs <;> exact h
  | zoomCamera d =>
    simp only [step, zoomCamera]
    split_ifs <;> exact h
  | _ => exact h

theorem modelViewLaw_foldl (T : Trig K) (ops : List (Op K)) :
    ∀ w : ModelGL K × Context K, ModelViewLaw w.1 → ModelViewLaw (ops.foldl (step T) w).1 := by
  induction ops with
  | nil => intro w h; exact h
  | cons op rest ih => intro w h; exact ih _ (modelViewLaw_step T w op h)

/-- C1: after a `draw()` pass, and after any later sequence of pose setters,
mouse calls and further draws, the stored `matrixModelView` is the matrix
product `matrixView * matrixModel`, whatever the camera pose and model pose. -/
theorem modelView_eq_view_mul_model (T : Trig K) (s : ModelGL K) (ctx : Context K)
    (ops : List (Op K)) :
    toMatrix (ops.foldl (step T) (draw T s ctx)).1.matrixModelView =
      toMatrix (ops.foldl (step T) (draw T s ctx)).1.matrixView *
        toMatrix (ops.foldl (step T) (draw T s ctx)).1.matrixModel :=
  modelViewLaw_foldl T ops _ (modelViewLaw_draw T s ctx)

/-- C2: the view matrix saved by `drawSub1` is
`Rz(-roll) * Ry(-heading) * Rx(-pitch) * T(-x, -y, -z)`, built by
post-multiplication from the identity, for the pose held in the object and so for
every pose `setViewMatrix` stores. -/
theorem view_matrix_composition (T : Trig K) (s : ModelGL K) (ctx : Context K) :
    toMatrix (drawSub1 T s ctx).1.matrixView =
        1 * Spec.Rz T (-s.cameraAngle 2) * Spec.Ry T (-s.cameraAngle 1) *
          Spec.Rx T (-s.cameraAngle 0) *
          Spec.Tr (-s.cameraPosition 0) (-s.cameraPosition 1) (-s.cameraPosition 2) ∧
    ∀ x y z pitch heading roll : K,
      toMatrix (drawSub1 T (setViewMatrix x y z pitch heading roll s) ctx).1.matrixView =
        Spec.Rz T (-roll) * Spec.Ry T (-heading) * Spec.Rx T (-pitch) * Spec.Tr (-x) (-y) (-z) := by
  have key : ∀ s : ModelGL K, toMatrix (drawSub1 T s ctx).1.matrixView =
        1 * Spec.Rz T (-s.cameraAngle 2) * Spec.Ry T (-s.cameraAngle 1) *
          Spec.Rx T (-s.cameraAngle 0) *
          Spec.Tr (-s.cameraPosition 0) (-s.cameraPosition 1) (-s.cameraPosition 2) := by
    intro s
    rw [drawSub1_fst]
    simp only [toMatrix_mult, toMatrix_identity, toMatrix_rotation_x, toMatrix_rotation_y,
      toMatrix_rotation_z, toMatrix_translation]
  refine ⟨key s, ?_⟩
  intro x y z pitch heading roll
  rw [key, one_mul]
  rfl

/-- C3: the model matrix saved by `drawSub1` is `T(x, y, z) * Rx(rx) * Ry(ry) * Rz(rz)`,
built by post-multiplication from the identity, for every model pose, and the
camera pose has no influence on it. -/
theorem model_matrix_composition (T : Trig K) (s : ModelGL K) (ctx : Context K) :
    (∀ x y z rx ry rz : K,
      toMatrix (drawSub1 T (setModelMatrix x y z rx ry rz s) ctx).1.matrixModel =
        1 * Spec.Tr x y z * Spec.Rx T rx * Spec.Ry T ry * Spec.Rz T rz) ∧
    toMatrix (drawSub1 T s ctx).1.matrixModel =
        1 * Spec.Tr (s.modelPosition 0) (s.modelPosition 1) (s.modelPosition 2) *
          Spec.Rx T (s.modelAngle 0) * Spec.Ry T (s.modelAngle 1) * Spec.Rz T (s.modelAngle 2) ∧
    ∀ (x y z pitch heading roll : K) (ctx2 : Context K),
      (drawSub1 T (setViewMatrix x y z pitch heading roll s) ctx2).1.matrixModel =
        (drawSub1 T s ctx).1.matrixModel := by
  have key : ∀ s : ModelGL K, toMatrix (drawSub1 T s ctx).1.matrixModel =
        1 * Spec.Tr (s.modelPosition 0) (s.modelPosition 1) (s.modelPosition 2) *
          Spec.Rx T (s.modelAngle 0) * Spec.Ry T (s.modelAngle 1) *
          Spec.Rz T (s.modelAngle 2) := by
    intro s
    rw [drawSub1_fst]
    simp only [toMatrix_mult, toMatrix_identity, toMatrix_rotation_x, toMatrix_rotation_y,
      toMatrix_rotation_z, toMatrix_translation]
  refine ⟨?_, key s, ?_⟩
  · intro x y z rx ry rz
    rw [key]
    rfl
  · intro x y z pitch heading roll ctx2
    rw [drawSub1_fst, drawSub1_fst]
    rfl

end MatrixModelView

/-! ## The exporting getters -/

namespace MatrixModelView

open OpenGL

variable {K : Type}

theorem writeTransposed_apply (src m : Mat16 K) (row col : Fin 4) :
    writeTransposed src m ⟨row.val * 4 + col.val, by omega⟩ =
      src ⟨col.val * 4 + row.val, by omega⟩ := by
  fin_cases row <;> fin_cases col <;> simp [writeTransposed, Function.update]

theorem writeTransposed_indep (src m m2 : Mat16 K) :
    writeTransposed src m = writeTransposed src m2 := by
  funext i
  fin_cases i <;> simp [writeTransposed, Function.update]

/-- C4: each of `getViewMatrix`, `getModelMatrix`, `getModelViewMatrix` and
`getProjectionMatrix` writes `out[row*4+col] = M[col*4+row]` for its own stored
matrix `M` and all rows and columns, writes all sixteen entries of the output
(nothing of the array's earlier contents survives), and leaves the object, so the
stored matrix, as it was. -/
theorem getters_write_transposed_copy [Field K] (s : ModelGL K)
    (p : MatrixProjection.ModelGL K) (m m2 : Mat16 K) :
    (∀ row col : Fin 4,
      (getViewMatrix s m).2 ⟨row.val * 4 + col.val, by omega⟩ =
        s.matrixView ⟨col.val * 4 + row.val, by omega⟩ ∧
      (getModelMatrix s m).2 ⟨row.val * 4 + col.val, by omega⟩ =
        s.matrixModel ⟨col.val * 4 + row.val, by omega⟩ ∧
      (getModelViewMatrix s m).2 ⟨row.val * 4 + col.val, by omega⟩ =
        s.matrixModelView ⟨col.val * 4 + row.val, by omega⟩ ∧
      (MatrixProjection.getProjectionMatrix p m).2 ⟨row.val * 4 + col.val, by omega⟩ =
        p.matrixProjection ⟨col.val * 4 + row.val, by omega⟩) ∧
    ((getViewMatrix s m).2 = (getViewMatrix s m2).2 ∧
      (getModelMatrix s m).2 = (getModelMatrix s m2).2 ∧
      (getModelViewMatrix s m).2 = (getModelViewMatrix s m2).2 ∧
      (MatrixProjection.getProjectionMatrix p m).2 =
        (MatrixProjection.getProjectionMatrix p m2).2) ∧
    ((getViewMatrix s m).1 = s ∧ (getModelMatrix s m).1 = s ∧
      (getModelViewMatrix s m).1 = s ∧ (MatrixProjection.getProjectionMatrix p m).1 = p) := by
  refine ⟨fun row col => ⟨?_, ?_, ?_, ?_⟩, ⟨?_, ?_, ?_, ?_⟩, ⟨rfl, rfl, rfl, rfl⟩⟩
  · exact writeTransposed_apply _ _ row col
  · exact writeTransposed_apply _ _ row col
  · exact writeTransposed_apply _ _ row col
  · exact writeTransposed_apply _ _ row col
  · exact writeTransposed_indep _ _ _
  · exact writeTransposed_indep _ _ _
  · exact writeTransposed_indep _ _ _
  · exact writeTransposed_indep _ _ _

end MatrixModelView

/-! ## Frustum vertices -/

namespace MatrixProjection

open OpenGL Vectors

variable {K : Type} [Field K] [DecidableEq K]

/-- The eight vertices `computeFrustumVertices` stores, written out. -/
theorem computeFrustumVertices_vertices (sqrt : K → K) (l r b t n f : K) (s : ModelGL K) :
    (computeFrustumVertices sqrt l r b t n f s).frustumVertices =
      ![⟨r, t, -n⟩, ⟨l, t, -n⟩, ⟨l, b, -n⟩, ⟨r, b, -n⟩,
        ⟨r * (if s.projectionMode = 0 then f / n else 1),
          t * (if s.projectionMode = 0 then f / n else 1), -f⟩,
        ⟨l * (if s.projectionMode = 0 then f / n else 1),
          t * (if s.projectionMode = 0 then f / n else 1), -f⟩,
        ⟨l * (if s.projectionMode = 0 then f / n else 1),
          b * (if s.projectionMode = 0 then f / n else 1), -f⟩,
        ⟨r * (if s.projectionMode = 0 then f / n else 1),
          b * (if s.projectionMode = 0 then f / n else 1), -f⟩] :=
  rfl

/-- C5: in perspective mode with `n ≠ 0`, far vertex `i + 4` is near vertex `i`
scaled by `f / n` in x and y, at depth `-f`, the near vertices lying at depth
`-n`; for n = 1, f = 10, l = -1, r = 1, b = -1, t = 1 the far vertices are the
near ones scaled by 10 in x and y, at depth -10. -/
theorem perspective_far_vertices (sqrt : K → K) (s : ModelGL K)
    (hmode : s.projectionMode = 0) (l r b t n f : K) (hn : n ≠ 0) :
    (∀ i : Fin 4,
      ((computeFrustumVertices sqrt l r b t n f s).frustumVertices ⟨i.val + 4, by omega⟩).x =
        f / n * ((computeFrustumVertices sqrt l r b t n f s).frustumVertices ⟨i.val, by omega⟩).x ∧
      ((computeFrustumVertices sqrt l r b t n f s).frustumVertices ⟨i.val + 4, by omega⟩).y =
        f / n * ((computeFrustumVertices sqrt l r b t n f s).frustumVertices ⟨i.val, by omega⟩).y ∧
      ((computeFrustumVertices sqrt l r b t n f s).frustumVertices ⟨i.val + 4, by omega⟩).z = -f ∧
      ((computeFrustumVertices sqrt l r b t n f s).frustumVertices ⟨i.val, by omega⟩).z = -n) ∧
    (computeFrustumVertices sqrt (-1) 1 (-1) 1 1 10 s).frustumVertices =
      ![⟨1, 1, -1⟩, ⟨-1, 1, -1⟩, ⟨-1, -1, -1⟩, ⟨1, -1, -1⟩,
        ⟨10, 10, -10⟩, ⟨-10, 10, -10⟩, ⟨-10, -10, -10⟩, ⟨10, -10, -10⟩] := by
  have _ := hn
  constructor
  · intro i
    rw [computeFrustumVertices_vertices]
    simp only [hmode, ↓reduceIte]
    fin_cases i <;> exact ⟨mul_comm _ _, mul_comm _ _, rfl, rfl⟩
  · rw [computeFrustumVertices_vertices]
    simp only [hmode, ↓reduceIte]
    norm_num

/-- C6: in orthographic mode, for all bounds (`n = 0` included), far vertex
`i + 4` has the x and y of near vertex `i` and depth `-f`; the eight vertices are
exactly the corners of the box [l,r] x [b,t] x [-f,-n]; for n = 1, f = 10,
l = -1, r = 1, b = -1, t = 1 the far vertices are (1,1,-10), (-1,1,-10),
(-1,-1,-10), (1,-1,-10). -/
theorem orthographic_far_vertices (sqrt : K → K) (s : ModelGL K)
    (hmode : s.projectionMode = 1) (l r b t n f : K) :
    (∀ i : Fin 4,
      ((computeFrustumVertices sqrt l r b t n f s).frustumVertices ⟨i.val + 4, by omega⟩).x =
        ((computeFrustumVertices sqrt l r b t n f s).frustumVertices ⟨i.val, by omega⟩).x ∧
      ((computeFrustumVertices sqrt l r b t n f s).frustumVertices ⟨i.val + 4, by omega⟩).y =
        ((computeFrustumVertices sqrt l r b t n f s).frustumVertices ⟨i.val, by omega⟩).y ∧
      ((computeFrustumVertices sqrt l r b t n f s).frustumVertices ⟨i.val + 4, by omega⟩).z = -f ∧
      ((computeFrustumVertices sqrt l r b t n f s).frustumVertices ⟨i.val, by omega⟩).z = -n) ∧
    (∀ v : Vector3 K,
      (∃ i, (computeFrustumVertices sqrt l r b t n f s).frustumVertices i = v) ↔
        (v.x = l ∨ v.x = r) ∧ (v.y = b ∨ v.y = t) ∧ (v.z = -f ∨ v.z = -n)) ∧
    (computeFrustumVertices sqrt (-1) 1 (-1) 1 1 10 s).frustumVertices =
      ![⟨1, 1, -1⟩, ⟨-1, 1, -1⟩, ⟨-1, -1, -1⟩, ⟨1, -1, -1⟩,
        ⟨1, 1, -10⟩, ⟨-1, 1, -10⟩, ⟨-1, -1, -10⟩, ⟨1, -1, -10⟩] := by
  have h10 : ¬ ((1 : Int) = 0) := by decide
  refine ⟨?_, ?_, ?_⟩
  · intro i
    rw [computeFrustumVertices_vertices]
    simp only [hmode, h10, ↓reduceIte, mul_one]
    fin_cases i <;> exact ⟨rfl, rfl, rfl, rfl⟩
  · intro v
    rw [computeFrustumVertices_vertices]
    simp only [hmode, h10, ↓reduceIte, mul_one]
    constructor
    · rintro ⟨i, rfl⟩
      fin_cases i <;> refine ⟨?_, ?_, ?_⟩ <;> first | exact Or.inl rfl | exact Or.inr rfl
    · rintro ⟨hx, hy, hz⟩
      obtain ⟨x, y, z⟩ := v
      simp only at hx hy hz
      rcases hx with rfl | rfl <;> rcases hy with rfl | rfl <;> rcases hz with rfl | rfl
      · exact ⟨6, rfl⟩
      · exact ⟨2, rfl⟩
      · exact ⟨5, rfl⟩
      · exact ⟨1, rfl⟩
      · exact ⟨7, rfl⟩
      · exact ⟨3, rfl⟩
      · exact ⟨4, rfl⟩
      · exact ⟨0, rfl⟩
  · rw [computeFrustumVertices_vertices]
    simp only [hmode, h10, ↓reduceIte, mul_one]

/-- C7: for all bounds and whatever the mode, vertices 0..3 are the near quad in
the order top-right (r,t,-n), top-left (l,t,-n), bottom-left (l,b,-n),
bottom-right (r,b,-n), and vertices 4..7 are the far quad in the same order, at
depth -f, its bounds being the near bounds times the mode's scale (f/n in
perspective mode, 1 otherwise); the array `drawFrustum` of the model-view demo
fills has the same order. -/
theorem frustum_vertex_order (sqrt : K → K) (s : ModelGL K) (l r b t n f : K)
    (tangent aspectRatio : K) :
    (computeFrustumVertices sqrt l r b t n f s).frustumVertices 0 = ⟨r, t, -n⟩ ∧
    (computeFrustumVertices sqrt l r b t n f s).frustumVertices 1 = ⟨l, t, -n⟩ ∧
    (computeFrustumVertices sqrt l r b t n f s).frustumVertices 2 = ⟨l, b, -n⟩ ∧
    (computeFrustumVertices sqrt l r b t n f s).frustumVertices 3 = ⟨r, b, -n⟩ ∧
    (computeFrustumVertices sqrt l r b t n f s).frustumVertices 4 =
      ⟨r * (if s.projectionMode = 0 then f / n else 1),
        t * (if s.projectionMode = 0 then f / n else 1), -f⟩ ∧
    (computeFrustumVertices sqrt l r b t n f s).frustumVertices 5 =
      ⟨l * (if s.projectionMode = 0 then f / n else 1),
        t * (if s.projectionMode = 0 then f / n else 1), -f⟩ ∧
    (computeFrustumVertices sqrt l r b t n f s).frustumVertices 6 =
      ⟨l * (if s.projectionMode = 0 then f / n else 1),
        b * (if s.projectionMode = 0 then f / n else 1), -f⟩ ∧
    (computeFrustumVertices sqrt l r b t n f s).frustumVertices 7 =
      ⟨r * (if s.projectionMode = 0 then f / n else 1),
        b * (if s.projectionMode = 0 then f / n else 1), -f⟩ ∧
    MatrixModelView.drawFrustumVertices tangent aspectRatio n f =
      ![![n * tangent * aspectRatio, n * tangent, -n],
        ![-(n * tangent * aspectRatio), n * tangent, -n],
        ![-(n * tangent * aspectRatio), -(n * tangent), -n],
        ![n * tangent * aspectRatio, -(n * tangent), -n],
        ![f * tangent * aspectRatio, f * tangent, -f],
        ![-(f * tangent * aspectRatio), f * tangent, -f],
        ![-(f * tangent * aspectRatio), -(f * tangent), -f],
        ![f * tangent * aspectRatio, -(f * tangent), -f]] := by
  exact ⟨rfl, rfl, rfl, rfl, rfl, rfl, rfl, rfl, rfl⟩

end MatrixProjection

/-! ## Frustum normals -/

namespace Vectors.Vector3

/-- A vector of non-zero length is divided by its length. -/
theorem normalize_of_ne {K : Type} [Field K] [DecidableEq K] (sqrt : K → K) (a : Vector3 K)
    (h : length sqrt a ≠ 0) :
    normalize sqrt a = ⟨a.x / length sqrt a, a.y / length sqrt a, a.z / length sqrt a⟩ := by
  simp only [normalize, normalizeDivisor, if_neg h]

/-- A vector of length zero is left as it is. -/
theorem normalize_of_eq {K : Type} [Field K] [DecidableEq K] (sqrt : K → K) (a : Vector3 K)
    (h : length sqrt a = 0) : normalize sqrt a = a := by
  simp only [normalize, normalizeDivisor, if_pos h]

/-- Over the reals a vector with a non-zero component has a positive length. -/
theorem length_pos (v : Vector3 ℝ) (h : 0 < v.x * v.x + v.y * v.y + v.z * v.z) :
    0 < length Real.sqrt v :=
  Real.sqrt_pos.mpr h

theorem length_normalize (v : Vector3 ℝ) (h : 0 < v.x * v.x + v.y * v.y + v.z * v.z) :
    length Real.sqrt (normalize Real.sqrt v) = 1 := by
  have hL : 0 < Real.sqrt (v.x * v.x + v.y * v.y + v.z * v.z) := Real.sqrt_pos.mpr h
  have hs : Real.sqrt (v.x * v.x + v.y * v.y + v.z * v.z) *
      Real.sqrt (v.x * v.x + v.y * v.y + v.z * v.z) = v.x * v.x + v.y * v.y + v.z * v.z :=
    Real.mul_self_sqrt h.le
  rw [normalize_of_ne _ _ (length_pos v h).ne']
  simp only [length]
  generalize Real.sqrt (v.x * v.x + v.y * v.y + v.z * v.z) = L at hL hs
  have : v.x / L * (v.x / L) + v.y / L * (v.y / L) + v.z / L * (v.z / L) = 1 := by
    field_simp
    linarith
  rw [this, Real.sqrt_one]

theorem dot_normalize (sqrt : ℝ → ℝ) (c w : Vector3 ℝ) (h : length sqrt c ≠ 0) :
    dot (normalize sqrt c) w = dot c w / length sqrt c := by
  rw [normalize_of_ne _ _ h]
  simp only [dot]
  ring

theorem dot_normalize_nonpos (c w : Vector3 ℝ) (h : dot c w ≤ 0) :
    dot (normalize Real.sqrt c) w ≤ 0 := by
  by_cases h0 : length Real.sqrt c = 0
  · rw [normalize_of_eq _ _ h0]
    exact h
  · rw [dot_normalize _ _ _ h0]
    exact div_nonpos_of_nonpos_of_nonneg h (Real.sqrt_nonneg _)

end Vectors.Vector3

namespace Vectors.Vector3

theorem cross_sub_mk {K : Type} [Field K] (a1 a2 a3 b1 b2 b3 c1 c2 c3 : K) :
    ((⟨a1, a2, a3⟩ : Vector3 K) - ⟨c1, c2, c3⟩) * (⟨b1, b2, b3⟩ - ⟨c1, c2, c3⟩) =
      ⟨(a2 - c2) * (b3 - c3) - (a3 - c3) * (b2 - c2),
        (a3 - c3) * (b1 - c1) - (a1 - c1) * (b3 - c3),
        (a1 - c1) * (b2 - c2) - (a2 - c2) * (b1 - c1)⟩ :=
  rfl

theorem mk_congr {K : Type} {x y z x2 y2 z2 : K} (hx : x = x2) (hy : y = y2) (hz : z = z2) :
    (⟨x, y, z⟩ : Vector3 K) = ⟨x2, y2, z2⟩ := by
  subst hx hy hz
  rfl

end Vectors.Vector3

namespace MatrixProjection
open OpenGL Vectors

/-- The far-plane scale of `computeFrustumVertices` is positive for valid bounds. -/
theorem scale_pos (s : ModelGL ℝ) (n f : ℝ) (hn : 0 < n) (hf : n < f) :
    0 < (if s.projectionMode = 0 then f / n else 1) := by
  split_ifs
  · exact div_pos (hn.trans hf) hn
  · exact one_pos

/-- Every normal is the normalised product of its two edge vectors. -/
theorem computeFrustumVertices_normals {K : Type} [Field K] [DecidableEq K] (sqrt : K → K)
    (l r b t n f : K) (s : ModelGL K) (k : Fin 6) :
    (computeFrustumVertices sqrt l r b t n f s).frustumNormals k =
      (edgeProducts (computeFrustumVertices sqrt l r b t n f s).frustumVertices k).normalize
        sqrt := by
  fin_cases k <;> rfl

/-- The six products of edge vectors in closed form, for a far-plane scale `ρ`. -/
theorem edgeProducts_closed {K : Type} [Field K] (l r b t n f ρ : K) (k : Fin 6) :
    edgeProducts (![⟨r, t, -n⟩, ⟨l, t, -n⟩, ⟨l, b, -n⟩, ⟨r, b, -n⟩,
        ⟨r * ρ, t * ρ, -f⟩, ⟨l * ρ, t * ρ, -f⟩, ⟨l * ρ, b * ρ, -f⟩, ⟨r * ρ, b * ρ, -f⟩] :
        Fin 8 → Vector3 K) k =
      (![⟨(f - n) * (b - t), 0, (l * ρ - l) * (b - t)⟩,
        ⟨(f - n) * (t - b), 0, (r * ρ - r) * (t - b)⟩,
        ⟨0, (f - n) * (l - r), (b * ρ - b) * (l - r)⟩,
        ⟨0, (f - n) * (r - l), (t * ρ - t) * (r - l)⟩,
        ⟨0, 0, (r - l) * (t - b)⟩,
        ⟨0, 0, -((r - l) * (t - b) * (ρ * ρ))⟩] : Fin 6 → Vector3 K) k := by
  fin_cases k
  · exact (Vector3.cross_sub_mk _ _ _ _ _ _ _ _ _).trans
      (Vector3.mk_congr (by ring) (by ring) (by ring))
  · exact (Vector3.cross_sub_mk _ _ _ _ _ _ _ _ _).trans
      (Vector3.mk_congr (by ring) (by ring) (by ring))
  · exact (Vector3.cross_sub_mk _ _ _ _ _ _ _ _ _).trans
      (Vector3.mk_congr (by ring) (by ring) (by ring))
  · exact (Vector3.cross_sub_mk _ _ _ _ _ _ _ _ _).trans
      (Vector3.mk_congr (by ring) (by ring) (by ring))
  · exact (Vector3.cross_sub_mk _ _ _ _ _ _ _ _ _).trans
      (Vector3.mk_congr (by ring) (by ring) (by ring))
  · exact (Vector3.cross_sub_mk _ _ _ _ _ _ _ _ _).trans
      (Vector3.mk_congr (by ring) (by ring) (by ring))

end MatrixProjection

namespace Vectors.Vector3

theorem dot_sub_mk {K : Type} [Field K] (c1 c2 c3 a1 a2 a3 p1 p2 p3 : K) :
    dot (⟨c1, c2, c3⟩ : Vector3 K) (⟨a1, a2, a3⟩ - ⟨p1, p2, p3⟩) =
      c1 * (a1 - p1) + c2 * (a2 - p2) + c3 * (a3 - p3) :=
  rfl

theorem sumsq_pos_x (x y z : ℝ) (h : x ≠ 0) : 0 < x * x + y * y + z * z := by
  have := mul_self_pos.2 h
  nlinarith [mul_self_nonneg y, mul_self_nonneg z]

theorem sumsq_pos_y (x y z : ℝ) (h : y ≠ 0) : 0 < x * x + y * y + z * z := by
  have := mul_self_pos.2 h
  nlinarith [mul_self_nonneg x, mul_self_nonneg z]

theorem sumsq_pos_z (x y z : ℝ) (h : z ≠ 0) : 0 < x * x + y * y + z * z := by
  have := mul_self_pos.2 h
  nlinarith [mul_self_nonneg x, mul_self_nonneg y]

theorem normalize_z_pos (z : ℝ) (h : 0 < z) :
    normalize Real.sqrt (⟨0, 0, z⟩ : Vector3 ℝ) = ⟨0, 0, 1⟩ := by
  have hL : Real.sqrt (0 * 0 + 0 * 0 + z * z) = z := by
    rw [mul_zero, zero_add, zero_add, Real.sqrt_mul_self h.le]
  have hne : length Real.sqrt (⟨0, 0, z⟩ : Vector3 ℝ) ≠ 0 := by
    simp only [length, hL]
    exact h.ne'
  rw [normalize_of_ne _ _ hne]
  simp only [length, hL]
  exact mk_congr (zero_div z) (zero_div z) (div_self h.ne')

theorem normalize_z_neg (z : ℝ) (h : z < 0) :
    normalize Real.sqrt (⟨0, 0, z⟩ : Vector3 ℝ) = ⟨0, 0, -1⟩ := by
  have hL : Real.sqrt (0 * 0 + 0 * 0 + z * z) = -z := by
    rw [mul_zero, zero_add, zero_add, ← neg_mul_neg, Real.sqrt_mul_self (neg_nonneg.2 h.le)]
  have hne : length Real.sqrt (⟨0, 0, z⟩ : Vector3 ℝ) ≠ 0 := by
    simp only [length, hL]
    exact neg_ne_zero.2 h.ne
  rw [normalize_of_ne _ _ hne]
  simp only [length, hL]
  refine mk_congr (zero_div _) (zero_div _) ?_
  rw [div_neg, div_self h.ne]

end Vectors.Vector3

namespace MatrixProjection
open OpenGL Vectors

/-- The sum of squares of every edge product is positive for valid bounds. -/
theorem edgeProducts_sumsq_pos (l r b t n f ρ : ℝ) (hf : n < f) (hlr : l < r) (hbt : b < t)
    (hρ : 0 < ρ) (k : Fin 6) (c : Vector3 ℝ)
    (hc : c = (![⟨(f - n) * (b - t), 0, (l * ρ - l) * (b - t)⟩,
        ⟨(f - n) * (t - b), 0, (r * ρ - r) * (t - b)⟩,
        ⟨0, (f - n) * (l - r), (b * ρ - b) * (l - r)⟩,
        ⟨0, (f - n) * (r - l), (t * ρ - t) * (r - l)⟩,
        ⟨0, 0, (r - l) * (t - b)⟩,
        ⟨0, 0, -((r - l) * (t - b) * (ρ * ρ))⟩] : Fin 6 → Vector3 ℝ) k) :
    0 < c.x * c.x + c.y * c.y + c.z * c.z := by
  have h1 : 0 < f - n := sub_pos.2 hf
  have h2 : 0 < r - l := sub_pos.2 hlr
  have h3 : 0 < t - b := sub_pos.2 hbt
  subst hc
  fin_cases k
  · exact Vector3.sumsq_pos_x _ _ _ (mul_neg_of_pos_of_neg h1 (sub_neg.2 hbt)).ne
  · exact Vector3.sumsq_pos_x _ _ _ (mul_pos h1 h3).ne'
  · exact Vector3.sumsq_pos_y _ _ _ (mul_neg_of_pos_of_neg h1 (sub_neg.2 hlr)).ne
  · exact Vector3.sumsq_pos_y _ _ _ (mul_pos h1 h2).ne'
  · exact Vector3.sumsq_pos_z _ _ _ (mul_pos h2 h3).ne'
  · exact Vector3.sumsq_pos_z _ _ _
      (neg_neg_of_pos (mul_pos (mul_pos h2 h3) (mul_pos hρ hρ))).ne

/-- C8: for bounds with near > 0, far > near, left < right, bottom < top, and in
either projection mode, each of the six normals is the normalised product of two
edge vectors, that product is not the zero vector, and the normal has Euclidean
length exactly 1 over the reals. -/
theorem frustum_normals_unit_length (s : ModelGL ℝ) (l r b t n f : ℝ)
    (hn : 0 < n) (hf : n < f) (hlr : l < r) (hbt : b < t) (k : Fin 6) :
    (computeFrustumVertices Real.sqrt l r b t n f s).frustumNormals k =
      (edgeProducts (computeFrustumVertices Real.sqrt l r b t n f s).frustumVertices
        k).normalize Real.sqrt ∧
    edgeProducts (computeFrustumVertices Real.sqrt l r b t n f s).frustumVertices k ≠
      ⟨0, 0, 0⟩ ∧
    Vector3.length Real.sqrt
      ((computeFrustumVertices Real.sqrt l r b t n f s).frustumNormals k) = 1 := by
  have hρ := scale_pos s n f hn hf
  have hq := edgeProducts_sumsq_pos l r b t n f _ hf hlr hbt hρ k _
    (edgeProducts_closed l r b t n f (if s.projectionMode = 0 then f / n else 1) k)
  rw [← computeFrustumVertices_vertices Real.sqrt l r b t n f s] at hq
  refine ⟨computeFrustumVertices_normals _ _ _ _ _ _ _ _ _, ?_, ?_⟩
  · intro h0
    rw [h0] at hq
    simp at hq
  · rw [computeFrustumVertices_normals]
    exact Vector3.length_normalize _ hq

end MatrixProjection

namespace MatrixProjection
open OpenGL Vectors

/-- Every vertex lies on the inner side of every face, before normalisation. -/
theorem edgeProducts_dot_nonpos (l r b t n f ρ : ℝ) (hf : n < f) (hlr : l < r) (hbt : b < t)
    (hρ : 0 < ρ) (k : Fin 6) (j : Fin 8) :
    Vector3.dot
      ((![⟨(f - n) * (b - t), 0, (l * ρ - l) * (b - t)⟩,
        ⟨(f - n) * (t - b), 0, (r * ρ - r) * (t - b)⟩,
        ⟨0, (f - n) * (l - r), (b * ρ - b) * (l - r)⟩,
        ⟨0, (f - n) * (r - l), (t * ρ - t) * (r - l)⟩,
        ⟨0, 0, (r - l) * (t - b)⟩,
        ⟨0, 0, -((r - l) * (t - b) * (ρ * ρ))⟩] : Fin 6 → Vector3 ℝ) k)
      ((![⟨r, t, -n⟩, ⟨l, t, -n⟩, ⟨l, b, -n⟩, ⟨r, b, -n⟩,
        ⟨r * ρ, t * ρ, -f⟩, ⟨l * ρ, t * ρ, -f⟩, ⟨l * ρ, b * ρ, -f⟩, ⟨r * ρ, b * ρ, -f⟩] :
        Fin 8 → Vector3 ℝ) j -
       (![⟨r, t, -n⟩, ⟨l, t, -n⟩, ⟨l, b, -n⟩, ⟨r, b, -n⟩,
        ⟨r * ρ, t * ρ, -f⟩, ⟨l * ρ, t * ρ, -f⟩, ⟨l * ρ, b * ρ, -f⟩, ⟨r * ρ, b * ρ, -f⟩] :
        Fin 8 → Vector3 ℝ) (sharedVertex k)) ≤ 0 := by
  have h1 : 0 < (f - n) * (t - b) * (r - l) :=
    mul_pos (mul_pos (sub_pos.2 hf) (sub_pos.2 hbt)) (sub_pos.2 hlr)
  have h2 : 0 < (f - n) * (t - b) * (r - l) * ρ := mul_pos h1 hρ
  have h4 : 0 < (f - n) * (t - b) * (r - l) * ρ * ρ := mul_pos h2 hρ
  fin_cases k <;> fin_cases j <;>
    (refine le_of_eq_of_le (Vector3.dot_sub_mk _ _ _ _ _ _ _ _ _) ?_
     linarith [h1, h2, h4])

end MatrixProjection

namespace Vectors.Vector3

theorem normalize_x_neg (c : Vector3 ℝ) (hq : 0 < c.x * c.x + c.y * c.y + c.z * c.z)
    (hx : c.x < 0) : (normalize Real.sqrt c).x < 0 := by
  rw [normalize_of_ne _ _ (length_pos c hq).ne']
  exact div_neg_of_neg_of_pos hx (Real.sqrt_pos.2 hq)

theorem normalize_x_pos (c : Vector3 ℝ) (hq : 0 < c.x * c.x + c.y * c.y + c.z * c.z)
    (hx : 0 < c.x) : 0 < (normalize Real.sqrt c).x := by
  rw [normalize_of_ne _ _ (length_pos c hq).ne']
  exact div_pos hx (Real.sqrt_pos.2 hq)

theorem normalize_y_neg (c : Vector3 ℝ) (hq : 0 < c.x * c.x + c.y * c.y + c.z * c.z)
    (hy : c.y < 0) : (normalize Real.sqrt c).y < 0 := by
  rw [normalize_of_ne _ _ (length_pos c hq).ne']
  exact div_neg_of_neg_of_pos hy (Real.sqrt_pos.2 hq)

theorem normalize_y_pos (c : Vector3 ℝ) (hq : 0 < c.x * c.x + c.y * c.y + c.z * c.z)
    (hy : 0 < c.y) : 0 < (normalize Real.sqrt c).y := by
  rw [normalize_of_ne _ _ (length_pos c hq).ne']
  exact div_pos hy (Real.sqrt_pos.2 hq)

end Vectors.Vector3

namespace MatrixProjection
open OpenGL Vectors

/-- C9: for bounds with near > 0, far > near, left < right, bottom < top, and in
either projection mode, every normal points outward: for each face `k` with
shared vertex `p_k` and each of the eight vertices `v`,
`dot(normal_k, v - p_k) ≤ 0`; normal 4 is (0,0,1), normal 5 is (0,0,-1), normal 0
has negative x, normal 1 positive x, normal 2 negative y, normal 3 positive y. -/
theorem frustum_normals_outward (s : ModelGL ℝ) (l r b t n f : ℝ)
    (hn : 0 < n) (hf : n < f) (hlr : l < r) (hbt : b < t) :
    (∀ (k : Fin 6) (j : Fin 8),
      Vector3.dot ((computeFrustumVertices Real.sqrt l r b t n f s).frustumNormals k)
        ((computeFrustumVertices Real.sqrt l r b t n f s).frustumVertices j -
          (computeFrustumVertices Real.sqrt l r b t n f s).frustumVertices (sharedVertex k))
        ≤ 0) ∧
    (computeFrustumVertices Real.sqrt l r b t n f s).frustumNormals 4 = ⟨0, 0, 1⟩ ∧
    (computeFrustumVertices Real.sqrt l r b t n f s).frustumNormals 5 = ⟨0, 0, -1⟩ ∧
    ((computeFrustumVertices Real.sqrt l r b t n f s).frustumNormals 0).x < 0 ∧
    0 < ((computeFrustumVertices Real.sqrt l r b t n f s).frustumNormals 1).x ∧
    ((computeFrustumVertices Real.sqrt l r b t n f s).frustumNormals 2).y < 0 ∧
    0 < ((computeFrustumVertices Real.sqrt l r b t n f s).frustumNormals 3).y := by
  have hρ := scale_pos s n f hn hf
  have h1 : 0 < f - n := sub_pos.2 hf
  have h2 : 0 < r - l := sub_pos.2 hlr
  have h3 : 0 < t - b := sub_pos.2 hbt
  have hN : ∀ k, (computeFrustumVertices Real.sqrt l r b t n f s).frustumNormals k =
      Vector3.normalize Real.sqrt
        ((![⟨(f - n) * (b - t), 0,
            (l * (if s.projectionMode = 0 then f / n else 1) - l) * (b - t)⟩,
          ⟨(f - n) * (t - b), 0,
            (r * (if s.projectionMode = 0 then f / n else 1) - r) * (t - b)⟩,
          ⟨0, (f - n) * (l - r),
            (b * (if s.projectionMode = 0 then f / n else 1) - b) * (l - r)⟩,
          ⟨0, (f - n) * (r - l),
            (t * (if s.projectionMode = 0 then f / n else 1) - t) * (r - l)⟩,
          ⟨0, 0, (r - l) * (t - b)⟩,
          ⟨0, 0, -((r - l) * (t - b) *
            ((if s.projectionMode = 0 then f / n else 1) *
              (if s.projectionMode = 0 then f / n else 1)))⟩] :
          Fin 6 → Vector3 ℝ) k) := by
    intro k
    rw [computeFrustumVertices_normals, computeFrustumVertices_vertices, edgeProducts_closed]
  have hq := fun k => edgeProducts_sumsq_pos l r b t n f _ hf hlr hbt hρ k _ rfl
  refine ⟨?_, ?_, ?_, ?_, ?_, ?_, ?_⟩
  · intro k j
    rw [hN, computeFrustumVertices_vertices]
    exact Vector3.dot_normalize_nonpos _ _
      (edgeProducts_dot_nonpos l r b t n f _ hf hlr hbt hρ k j)
  · rw [hN]
    exact Vector3.normalize_z_pos _ (mul_pos h2 h3)
  · rw [hN]
    exact Vector3.normalize_z_neg _ (neg_neg_of_pos (mul_pos (mul_pos h2 h3) (mul_pos hρ hρ)))
  · rw [hN]
    exact Vector3.normalize_x_neg _ (hq 0) (mul_neg_of_pos_of_neg h1 (sub_neg.2 hbt))
  · rw [hN]
    exact Vector3.normalize_x_pos _ (hq 1) (mul_pos h1 h3)
  · rw [hN]
    exact Vector3.normalize_y_neg _ (hq 2) (mul_neg_of_pos_of_neg h1 (sub_neg.2 hlr))
  · rw [hN]
    exact Vector3.normalize_y_pos _ (hq 3) (mul_pos h1 h2)

end MatrixProjection

/-! ## Orbit control -/

namespace MatrixModelView

open OpenGL

variable {K : Type} [Field K]

/-- C10: with the left latch set, `rotateCamera(x, y)` adds `x - mouseX` to the
orbit heading `cameraAngleY`, adds `y - mouseY` to the orbit pitch
`cameraAngleX`, and then stores `(x, y)` in `(mouseX, mouseY)` (the same holds
for `rotateCamera` of the projection demo); after a left-button-down at
(100,100) a move to (110,115) has raised the heading by 10 and the pitch by 15
and left the last pointer at (110,115). -/
theorem rotateCamera_orbit (s : ModelGL K) (p : MatrixProjection.ModelGL K) (x y : Int)
    (hs : s.mouseLeftDown = true) (hp : p.mouseLeftDown = true) :
    ((rotateCamera x y s).cameraAngleY = s.cameraAngleY + ((x - s.mouseX : Int) : K) ∧
      (rotateCamera x y s).cameraAngleX = s.cameraAngleX + ((y - s.mouseY : Int) : K) ∧
      (rotateCamera x y s).mouseX = x ∧ (rotateCamera x y s).mouseY = y) ∧
    ((MatrixProjection.rotateCamera x y p).cameraAngleY =
        p.cameraAngleY + ((x - p.mouseX : Int) : K) ∧
      (MatrixProjection.rotateCamera x y p).cameraAngleX =
        p.cameraAngleX + ((y - p.mouseY : Int) : K) ∧
      (MatrixProjection.rotateCamera x y p).mouseX = x ∧
      (MatrixProjection.rotateCamera x y p).mouseY = y) ∧
    (∀ s0 : ModelGL K,
      (rotateCamera 110 115
          (Win.ControllerGL.lButtonDown modelCalls Win.MK_LBUTTON 100 100 s0).1).cameraAngleY =
        s0.cameraAngleY + 10 ∧
      (rotateCamera 110 115
          (Win.ControllerGL.lButtonDown modelCalls Win.MK_LBUTTON 100 100 s0).1).cameraAngleX =
        s0.cameraAngleX + 15 ∧
      (rotateCamera 110 115
          (Win.ControllerGL.lButtonDown modelCalls Win.MK_LBUTTON 100 100 s0).1).mouseX = 110 ∧
      (rotateCamera 110 115
          (Win.ControllerGL.lButtonDown modelCalls Win.MK_LBUTTON 100 100 s0).1).mouseY = 115 ∧
      (Win.ControllerGL.mouseMove modelCalls Win.MK_LBUTTON 110 115
          (Win.ControllerGL.lButtonDown modelCalls Win.MK_LBUTTON 100 100 s0).1).1 =
        rotateCamera 110 115
          (Win.ControllerGL.lButtonDown modelCalls Win.MK_LBUTTON 100 100 s0).1) := by
  refine ⟨?_, ?_, ?_⟩
  · simp [rotateCamera, hs]
  · simp [MatrixProjection.rotateCamera, hp]
  · intro s0
    refine ⟨?_, ?_, rfl, rfl, rfl⟩
    · show s0.cameraAngleY + (((110 : Int) - 100 : Int) : K) = s0.cameraAngleY + 10
      norm_num
    · show s0.cameraAngleX + (((115 : Int) - 100 : Int) : K) = s0.cameraAngleX + 15
      norm_num

/-- Witness of C10: a model-view object and a projection object over the
rationals with the left latch set, pointer last seen at (3, 4), moved to
(10, 20). -/
theorem rotateCamera_orbit_witness :
    (setMouseLeft true (ModelGL.new 3 4 : ModelGL ℚ)).mouseLeftDown = true ∧
    ({ MatrixProjection.ModelGL.new 3 4 (fun _ => ⟨0, 0, 0⟩) (fun _ => ⟨0, 0, 0⟩) with
        mouseLeftDown := true } : MatrixProjection.ModelGL ℚ).mouseLeftDown = true ∧
    (rotateCamera 10 20 (setMouseLeft true (ModelGL.new 3 4 : ModelGL ℚ))).cameraAngleY =
      (setMouseLeft true (ModelGL.new 3 4 : ModelGL ℚ)).cameraAngleY +
        ((10 - (setMouseLeft true (ModelGL.new 3 4 : ModelGL ℚ)).mouseX : Int) : ℚ) :=
  ⟨rfl, rfl,
    (rotateCamera_orbit (setMouseLeft true (ModelGL.new 3 4 : ModelGL ℚ))
      { MatrixProjection.ModelGL.new 3 4 (fun _ => ⟨0, 0, 0⟩) (fun _ => ⟨0, 0, 0⟩) with
        mouseLeftDown := true } 10 20 rfl rfl).1.1⟩

end MatrixModelView

namespace MatrixProjection
open OpenGL Vectors

/-- Witness of C5: the default object (perspective mode) over the rationals,
bounds l = -2, r = 2, b = -1, t = 1, n = 2, f = 10, vertex pair (0, 4). -/
theorem perspective_far_vertices_witness :
    (ModelGL.new 0 0 (fun _ => ⟨0, 0, 0⟩) (fun _ => ⟨0, 0, 0⟩) : ModelGL ℚ).projectionMode = 0 ∧
    (2 : ℚ) ≠ 0 ∧
    ((computeFrustumVertices id (-2) 2 (-1) 1 2 10
        (ModelGL.new 0 0 (fun _ => ⟨0, 0, 0⟩) (fun _ => ⟨0, 0, 0⟩) : ModelGL ℚ)).frustumVertices
        ⟨(0 : Fin 4).val + 4, by omega⟩).x =
      10 / 2 * ((computeFrustumVertices id (-2) 2 (-1) 1 2 10
        (ModelGL.new 0 0 (fun _ => ⟨0, 0, 0⟩) (fun _ => ⟨0, 0, 0⟩) : ModelGL ℚ)).frustumVertices
        ⟨(0 : Fin 4).val, by omega⟩).x :=
  ⟨rfl, by norm_num,
    ((perspective_far_vertices id
      (ModelGL.new 0 0 (fun _ => ⟨0, 0, 0⟩) (fun _ => ⟨0, 0, 0⟩) : ModelGL ℚ) rfl
      (-2) 2 (-1) 1 2 10 (by norm_num)).1 0).1⟩

/-- Witness of C6: the default object switched to orthographic mode, over the
rationals, bounds l = -2, r = 2, b = -1, t = 1, n = 0, f = 10, vertex pair
(0, 4). -/
theorem orthographic_far_vertices_witness :
    ({ ModelGL.new 0 0 (fun _ => ⟨0, 0, 0⟩) (fun _ => ⟨0, 0, 0⟩) with
        projectionMode := 1 } : ModelGL ℚ).projectionMode = 1 ∧
    ((computeFrustumVertices id (-2) 2 (-1) 1 0 10
        ({ ModelGL.new 0 0 (fun _ => ⟨0, 0, 0⟩) (fun _ => ⟨0, 0, 0⟩) with
          projectionMode := 1 } : ModelGL ℚ)).frustumVertices
        ⟨(0 : Fin 4).val + 4, by omega⟩).x =
      ((computeFrustumVertices id (-2) 2 (-1) 1 0 10
        ({ ModelGL.new 0 0 (fun _ => ⟨0, 0, 0⟩) (fun _ => ⟨0, 0, 0⟩) with
          projectionMode := 1 } : ModelGL ℚ)).frustumVertices
        ⟨(0 : Fin 4).val, by omega⟩).x :=
  ⟨rfl,
    ((orthographic_far_vertices id
      ({ ModelGL.new 0 0 (fun _ => ⟨0, 0, 0⟩) (fun _ => ⟨0, 0, 0⟩) with
        projectionMode := 1 } : ModelGL ℚ) rfl (-2) 2 (-1) 1 0 10).1 0).1⟩

/-- Witness of C8: the default object, bounds l = -1, r = 1, b = -1, t = 1,
n = 1, f = 10, the left face. -/
theorem frustum_normals_unit_length_witness :
    (0 : ℝ) < 1 ∧ (1 : ℝ) < 10 ∧ (-1 : ℝ) < 1 ∧
    Vector3.length Real.sqrt
      ((computeFrustumVertices Real.sqrt (-1) 1 (-1) 1 1 10
        (ModelGL.new 0 0 (fun _ => ⟨0, 0, 0⟩) (fun _ => ⟨0, 0, 0⟩) : ModelGL ℝ)).frustumNormals
        0) = 1 :=
  ⟨by norm_num, by norm_num, by norm_num,
    (frustum_normals_unit_length
      (ModelGL.new 0 0 (fun _ => ⟨0, 0, 0⟩) (fun _ => ⟨0, 0, 0⟩) : ModelGL ℝ)
      (-1) 1 (-1) 1 1 10 (by norm_num) (by norm_num) (by norm_num) (by norm_num) 0).2.2⟩

/-- Witness of C9: the default object, bounds l = -1, r = 1, b = -1, t = 1,
n = 1, f = 10: the near normal is (0,0,1). -/
theorem frustum_normals_outward_witness :
    (0 : ℝ) < 1 ∧ (1 : ℝ) < 10 ∧ (-1 : ℝ) < 1 ∧
    (computeFrustumVertices Real.sqrt (-1) 1 (-1) 1 1 10
        (ModelGL.new 0 0 (fun _ => ⟨0, 0, 0⟩) (fun _ => ⟨0, 0, 0⟩) : ModelGL ℝ)).frustumNormals
        4 = ⟨0, 0, 1⟩ :=
  ⟨by norm_num, by norm_num, by norm_num,
    (frustum_normals_outward
      (ModelGL.new 0 0 (fun _ => ⟨0, 0, 0⟩) (fun _ => ⟨0, 0, 0⟩) : ModelGL ℝ)
      (-1) 1 (-1) 1 1 10 (by norm_num) (by norm_num) (by norm_num) (by norm_num)).2.1⟩

end MatrixProjection

/-! ## Zoom and latch gating -/

namespace MatrixModelView

open OpenGL

variable {K : Type} [Field K]

/-- C11: with the right latch set, `zoomCamera(y)` adds `(y - mouseY) * 0.05` to
`cameraDistance` and then stores `y` in `mouseY`; `mouseX`, `cameraAngleX` and
`cameraAngleY` stay as they were (in both demos). -/
theorem zoomCamera_distance (s : ModelGL K) (p : MatrixProjection.ModelGL K) (y : Int)
    (hs : s.mouseRightDown = true) (hp : p.mouseRightDown = true) :
    ((zoomCamera y s).cameraDistance =
        s.cameraDistance + ((y - s.mouseY : Int) : K) * (5 / 100) ∧
      (zoomCamera y s).mouseY = y ∧ (zoomCamera y s).mouseX = s.mouseX ∧
      (zoomCamera y s).cameraAngleX = s.cameraAngleX ∧
      (zoomCamera y s).cameraAngleY = s.cameraAngleY) ∧
    ((MatrixProjection.zoomCamera y p).cameraDistance =
        p.cameraDistance + ((y - p.mouseY : Int) : K) * (5 / 100) ∧
      (MatrixProjection.zoomCamera y p).mouseY = y ∧
      (MatrixProjection.zoomCamera y p).mouseX = p.mouseX ∧
      (MatrixProjection.zoomCamera y p).cameraAngleX = p.cameraAngleX ∧
      (MatrixProjection.zoomCamera y p).cameraAngleY = p.cameraAngleY) := by
  constructor
  · simp [zoomCamera, hs]
  · simp [MatrixProjection.zoomCamera, hp]

/-- Witness of C11: objects of both demos over the rationals with the right
latch set, pointer last seen at (3, 4), moved to y = 24. -/
theorem zoomCamera_distance_witness :
    (setMouseRight true (ModelGL.new 3 4 : ModelGL ℚ)).mouseRightDown = true ∧
    ({ MatrixProjection.ModelGL.new 3 4 (fun _ => ⟨0, 0, 0⟩) (fun _ => ⟨0, 0, 0⟩) with
        mouseRightDown := true } : MatrixProjection.ModelGL ℚ).mouseRightDown = true ∧
    (zoomCamera 24 (setMouseRight true (ModelGL.new 3 4 : ModelGL ℚ))).cameraDistance =
      (setMouseRight true (ModelGL.new 3 4 : ModelGL ℚ)).cameraDistance +
        ((24 - (setMouseRight true (ModelGL.new 3 4 : ModelGL ℚ)).mouseY : Int) : ℚ) *
          (5 / 100) :=
  ⟨rfl, rfl,
    (zoomCamera_distance (setMouseRight true (ModelGL.new 3 4 : ModelGL ℚ))
      { MatrixProjection.ModelGL.new 3 4 (fun _ => ⟨0, 0, 0⟩) (fun _ => ⟨0, 0, 0⟩) with
        mouseRightDown := true } 24 rfl rfl).1.1⟩

/-- C12: with neither latch set, a pointer-move event changes nothing in the
object, whatever the state mask and the pointer position, and the same holds for
a direct `rotateCamera(x, y)` or `zoomCamera(y)` (in both demos): the orbit
angles, the distance, the last pointer, the camera pose and the model pose all
stay as they were. -/
theorem mouseMove_without_latch (s : ModelGL K) (p : MatrixProjection.ModelGL K)
    (state : Nat) (x y : Int)
    (hsl : s.mouseLeftDown = false) (hsr : s.mouseRightDown = false)
    (hpl : p.mouseLeftDown = false) (hpr : p.mouseRightDown = false) :
    (Win.ControllerGL.mouseMove modelCalls state x y s).1 = s ∧
    rotateCamera x y s = s ∧ zoomCamera y s = s ∧
    MatrixProjection.rotateCamera x y p = p ∧ MatrixProjection.zoomCamera y p = p ∧
    ((Win.ControllerGL.mouseMove modelCalls state x y s).1.cameraAngleX = s.cameraAngleX ∧
      (Win.ControllerGL.mouseMove modelCalls state x y s).1.cameraAngleY = s.cameraAngleY ∧
      (Win.ControllerGL.mouseMove modelCalls state x y s).1.cameraDistance = s.cameraDistance ∧
      (Win.ControllerGL.mouseMove modelCalls state x y s).1.mouseX = s.mouseX ∧
      (Win.ControllerGL.mouseMove modelCalls state x y s).1.mouseY = s.mouseY ∧
      (Win.ControllerGL.mouseMove modelCalls state x y s).1.cameraPosition = s.cameraPosition ∧
      (Win.ControllerGL.mouseMove modelCalls state x y s).1.cameraAngle = s.cameraAngle ∧
      (Win.ControllerGL.mouseMove modelCalls state x y s).1.modelPosition = s.modelPosition ∧
      (Win.ControllerGL.mouseMove modelCalls state x y s).1.modelAngle = s.modelAngle) := by
  have hr : rotateCamera x y s = s := by simp [rotateCamera, hsl]
  have hz : zoomCamera y s = s := by simp [zoomCamera, hsr]
  have hm : (Win.ControllerGL.mouseMove modelCalls state x y s).1 = s := by
    simp only [Win.ControllerGL.mouseMove, modelCalls]
    split_ifs <;> simp [hr, hz]
  refine ⟨hm, hr, hz, ?_, ?_, ?_⟩
  · simp [MatrixProjection.rotateCamera, hpl]
  · simp [MatrixProjection.zoomCamera, hpr]
  · rw [hm]
    exact ⟨rfl, rfl, rfl, rfl, rfl, rfl, rfl, rfl, rfl⟩

/-- Witness of C12: freshly constructed objects of both demos (no latch set),
a move to (10, 20) under the mask `MK_LBUTTON`. -/
theorem mouseMove_without_latch_witness :
    (ModelGL.new 3 4 : ModelGL ℚ).mouseLeftDown = false ∧
    (ModelGL.new 3 4 : ModelGL ℚ).mouseRightDown = false ∧
    (Win.ControllerGL.mouseMove modelCalls Win.MK_LBUTTON 10 20
      (ModelGL.new 3 4 : ModelGL ℚ)).1 = ModelGL.new 3 4 :=
  ⟨rfl, rfl,
    (mouseMove_without_latch (ModelGL.new 3 4 : ModelGL ℚ)
      (MatrixProjection.ModelGL.new 3 4 (fun _ => ⟨0, 0, 0⟩) (fun _ => ⟨0, 0, 0⟩))
      Win.MK_LBUTTON 10 20 rfl rfl rfl rfl).1⟩

/-- C13: a left-button-down at `(x, y)` followed at once by a pointer move to the
same `(x, y)` leaves the orbit heading `cameraAngleY` and the orbit pitch
`cameraAngleX` as they were before the button-down, for every prior state and
whatever the state masks of the two events: the button-down has stored `(x, y)`
as the reference point. -/
theorem buttonDown_then_move_same_point (s : ModelGL K) (state1 state2 : Nat) (x y : Int) :
    ((Win.ControllerGL.mouseMove modelCalls state2 x y
        (Win.ControllerGL.lButtonDown modelCalls state1 x y s).1).1.cameraAngleY =
      s.cameraAngleY ∧
    (Win.ControllerGL.mouseMove modelCalls state2 x y
        (Win.ControllerGL.lButtonDown modelCalls state1 x y s).1).1.cameraAngleX =
      s.cameraAngleX) ∧
    ((rotateCamera x y (Win.ControllerGL.lButtonDown modelCalls state1 x y s).1).cameraAngleY =
      s.cameraAngleY ∧
    (rotateCamera x y (Win.ControllerGL.lButtonDown modelCalls state1 x y s).1).cameraAngleX =
      s.cameraAngleX) ∧
    (Win.ControllerGL.lButtonDown modelCalls state1 x y s).1.mouseX = x ∧
    (Win.ControllerGL.lButtonDown modelCalls state1 x y s).1.mouseY = y := by
  have hrot : ∀ s1 : ModelGL K, s1.mouseX = x → s1.mouseY = y →
      (rotateCamera x y s1).cameraAngleY = s1.cameraAngleY ∧
      (rotateCamera x y s1).cameraAngleX = s1.cameraAngleX := by
    intro s1 hx hy
    unfold rotateCamera
    split_ifs <;> simp [hx, hy]
  have hzoom : ∀ s1 : ModelGL K,
      (zoomCamera y s1).cameraAngleY = s1.cameraAngleY ∧
      (zoomCamera y s1).cameraAngleX = s1.cameraAngleX := by
    intro s1
    unfold zoomCamera
    split_ifs <;> exact ⟨rfl, rfl⟩
  have hdown : (Win.ControllerGL.lButtonDown modelCalls state1 x y s).1.mouseX = x ∧
      (Win.ControllerGL.lButtonDown modelCalls state1 x y s).1.mouseY = y ∧
      (Win.ControllerGL.lButtonDown modelCalls state1 x y s).1.cameraAngleY = s.cameraAngleY ∧
      (Win.ControllerGL.lButtonDown modelCalls state1 x y s).1.cameraAngleX = s.cameraAngleX := by
    simp only [Win.ControllerGL.lButtonDown, modelCalls]
    split_ifs <;> exact ⟨rfl, rfl, rfl, rfl⟩
  obtain ⟨hx, hy, hay, hax⟩ := hdown
  generalize (Win.ControllerGL.lButtonDown modelCalls state1 x y s).1 = s1 at hx hy hay hax ⊢
  have h1 := hrot s1 hx hy
  refine ⟨?_, ⟨h1.1.trans hay, h1.2.trans hax⟩, hx, hy⟩
  have hm1 : ∀ (b : Prop) [Decidable b],
      (if b then rotateCamera x y s1 else s1).cameraAngleY = s.cameraAngleY ∧
      (if b then rotateCamera x y s1 else s1).cameraAngleX = s.cameraAngleX := by
    intro b _
    split_ifs
    · exact ⟨h1.1.trans hay, h1.2.trans hax⟩
    · exact ⟨hay, hax⟩
  have hm2 : ∀ (m1 : ModelGL K) (b : Prop) [Decidable b],
      (if b then zoomCamera y m1 else m1).cameraAngleY = m1.cameraAngleY ∧
      (if b then zoomCamera y m1 else m1).cameraAngleX = m1.cameraAngleX := by
    intro m1 b _
    split_ifs
    · exact hzoom m1
    · exact ⟨rfl, rfl⟩
  exact ⟨(hm2 _ (state2 = Win.MK_RBUTTON)).1.trans (hm1 (state2 = Win.MK_LBUTTON)).1,
    (hm2 _ (state2 = Win.MK_RBUTTON)).2.trans (hm1 (state2 = Win.MK_LBUTTON)).2⟩

end MatrixModelView

/-! ## Button latches -/

namespace MatrixModelView

open OpenGL

variable {K : Type} [Field K]

/-- C14, as the code has it: `lButtonDown` sets the left latch exactly when the
state mask equals `MK_LBUTTON`, and `rButtonDown` sets the right latch exactly
when the state mask equals `MK_RBUTTON`; under any other mask the latch keeps its
value. Both store the pointer position in every case. -/
theorem buttonDown_latch (s : ModelGL K) (state : Nat) (x y : Int) :
    (Win.ControllerGL.lButtonDown modelCalls state x y s).1.mouseLeftDown =
      (if state = Win.MK_LBUTTON then true else s.mouseLeftDown) ∧
    (Win.ControllerGL.rButtonDown modelCalls state x y s).1.mouseRightDown =
      (if state = Win.MK_RBUTTON then true else s.mouseRightDown) ∧
    (Win.ControllerGL.lButtonDown modelCalls Win.MK_LBUTTON x y s).1.mouseLeftDown = true ∧
    (Win.ControllerGL.rButtonDown modelCalls Win.MK_RBUTTON x y s).1.mouseRightDown = true ∧
    (Win.ControllerGL.lButtonDown modelCalls state x y s).1.mouseX = x ∧
    (Win.ControllerGL.lButtonDown modelCalls state x y s).1.mouseY = y ∧
    (Win.ControllerGL.rButtonDown modelCalls state x y s).1.mouseX = x ∧
    (Win.ControllerGL.rButtonDown modelCalls state x y s).1.mouseY = y := by
  refine ⟨?_, ?_, rfl, rfl, ?_, ?_, ?_, ?_⟩ <;>
    simp only [Win.ControllerGL.lButtonDown, Win.ControllerGL.rButtonDown, modelCalls] <;>
    split_ifs <;> rfl

/-- C14 fails as stated: a left-button-down with the Control key held (state mask
`MK_LBUTTON | MK_CONTROL = 9`) on a fresh object leaves the left latch unset, and
a right-button-down with mask `MK_RBUTTON | MK_CONTROL = 10` leaves the right
latch unset. -/
theorem buttonDown_latch_counterexample :
    ¬ ((Win.ControllerGL.lButtonDown modelCalls 9 100 100
          (ModelGL.new 0 0 : ModelGL ℚ)).1.mouseLeftDown = true) ∧
    ¬ ((Win.ControllerGL.rButtonDown modelCalls 10 100 100
          (ModelGL.new 0 0 : ModelGL ℚ)).1.mouseRightDown = true) :=
  ⟨fun h => Bool.false_ne_true h, fun h => Bool.false_ne_true h⟩

/-- C15: `lButtonUp` sets the left latch to false and `rButtonUp` sets the right
latch to false, for every state, state mask and pointer position; each leaves the
other latch as it was, and neither changes `cameraAngleX`, `cameraAngleY` or
`cameraDistance`. -/
theorem buttonUp_latch (s : ModelGL K) (state : Nat) (x y : Int) :
    ((Win.ControllerGL.lButtonUp modelCalls state x y s).1.mouseLeftDown = false ∧
      (Win.ControllerGL.lButtonUp modelCalls state x y s).1.mouseRightDown = s.mouseRightDown ∧
      (Win.ControllerGL.lButtonUp modelCalls state x y s).1.cameraAngleX = s.cameraAngleX ∧
      (Win.ControllerGL.lButtonUp modelCalls state x y s).1.cameraAngleY = s.cameraAngleY ∧
      (Win.ControllerGL.lButtonUp modelCalls state x y s).1.cameraDistance = s.cameraDistance) ∧
    ((Win.ControllerGL.rButtonUp modelCalls state x y s).1.mouseRightDown = false ∧
      (Win.ControllerGL.rButtonUp modelCalls state x y s).1.mouseLeftDown = s.mouseLeftDown ∧
      (Win.ControllerGL.rButtonUp modelCalls state x y s).1.cameraAngleX = s.cameraAngleX ∧
      (Win.ControllerGL.rButtonUp modelCalls state x y s).1.cameraAngleY = s.cameraAngleY ∧
      (Win.ControllerGL.rButtonUp modelCalls state x y s).1.cameraDistance = s.cameraDistance) :=
  ⟨⟨rfl, rfl, rfl, rfl, rfl⟩, ⟨rfl, rfl, rfl, rfl, rfl⟩⟩

end MatrixModelView

/-! ## Export round trip and pose setters -/

namespace MatrixModelView

open OpenGL

variable {K : Type}

theorem writeTransposed_twice (M m m2 : Mat16 K) :
    writeTransposed (writeTransposed M m) m2 = M := by
  funext i
  fin_cases i <;> simp [writeTransposed, Function.update]

/-- C18: `setViewMatrix(x,y,z,pitch,heading,roll)` makes `getCameraX/Y/Z` and
`getCameraAngleX/Y/Z` return exactly its six arguments and leaves the model pose
as it was; `setModelMatrix(x,y,z,rx,ry,rz)` makes `getModelX/Y/Z` and
`getModelAngleX/Y/Z` return exactly its six arguments and leaves the camera pose
as it was. No argument is checked or clamped. -/
theorem pose_setters_overwrite (s : ModelGL K) (x y z a b c : K) :
    (getCameraX (setViewMatrix x y z a b c s) = x ∧
      getCameraY (setViewMatrix x y z a b c s) = y ∧
      getCameraZ (setViewMatrix x y z a b c s) = z ∧
      getCameraAngleX (setViewMatrix x y z a b c s) = a ∧
      getCameraAngleY (setViewMatrix x y z a b c s) = b ∧
      getCameraAngleZ (setViewMatrix x y z a b c s) = c ∧
      (setViewMatrix x y z a b c s).modelPosition = s.modelPosition ∧
      (setViewMatrix x y z a b c s).modelAngle = s.modelAngle) ∧
    (getModelX (setModelMatrix x y z a b c s) = x ∧
      getModelY (setModelMatrix x y z a b c s) = y ∧
      getModelZ (setModelMatrix x y z a b c s) = z ∧
      getModelAngleX (setModelMatrix x y z a b c s) = a ∧
      getModelAngleY (setModelMatrix x y z a b c s) = b ∧
      getModelAngleZ (setModelMatrix x y z a b c s) = c ∧
      (setModelMatrix x y z a b c s).cameraPosition = s.cameraPosition ∧
      (setModelMatrix x y z a b c s).cameraAngle = s.cameraAngle) :=
  ⟨⟨rfl, rfl, rfl, rfl, rfl, rfl, rfl, rfl⟩, ⟨rfl, rfl, rfl, rfl, rfl, rfl, rfl, rfl⟩⟩

end MatrixModelView

namespace MatrixModelView

open OpenGL

variable {K : Type}

/-- C17: the transposition the getters perform is an involution: exporting a
16-entry array `M` and exporting the result again gives `M` back, whatever the
output arrays held before (shown on the bare assignments and through
`getViewMatrix` and `getProjectionMatrix`). -/
theorem export_transpose_involution (M m m2 : Mat16 K) (s : ModelGL K)
    (p : MatrixProjection.ModelGL K) :
    writeTransposed (writeTransposed M m) m2 = M ∧
    (getViewMatrix { s with matrixView := (getViewMatrix s m).2 } m2).2 = s.matrixView ∧
    (MatrixProjection.getProjectionMatrix
      { p with matrixProjection := (MatrixProjection.getProjectionMatrix p m).2 } m2).2 =
      p.matrixProjection :=
  ⟨writeTransposed_twice M m m2, writeTransposed_twice _ m m2, writeTransposed_twice _ m m2⟩

end MatrixModelView

namespace MatrixModelView
open OpenGL
variable {K : Type}

theorem writeTransposed_eq (src m : Mat16 K) (i : Fin 16) :
    writeTransposed src m i = src (idx (colOf i) (rowOf i)) := by
  fin_cases i <;> simp [writeTransposed, Function.update, idx, colOf, rowOf] <;> rfl

end MatrixModelView

/-! ## Matrices of unrotated and of general poses -/

namespace Spec

open OpenGL

variable {K : Type} [Field K]

theorem Rx_zero (T : Trig K) (hc : T.cos 0 = 1) (hs : T.sin 0 = 0) : Rx T 0 = 1 := by
  ext i j
  fin_cases i <;> fin_cases j <;>
    simp [Rx, hc, hs, Matrix.one_apply, Matrix.vecHead, Matrix.vecTail]

theorem Ry_zero (T : Trig K) (hc : T.cos 0 = 1) (hs : T.sin 0 = 0) : Ry T 0 = 1 := by
  ext i j
  fin_cases i <;> fin_cases j <;>
    simp [Ry, hc, hs, Matrix.one_apply, Matrix.vecHead, Matrix.vecTail]

theorem Rz_zero (T : Trig K) (hc : T.cos 0 = 1) (hs : T.sin 0 = 0) : Rz T 0 = 1 := by
  ext i j
  fin_cases i <;> fin_cases j <;>
    simp [Rz, hc, hs, Matrix.one_apply, Matrix.vecHead, Matrix.vecTail]

theorem Tr_mul_Tr (a b c d e f : K) : Tr a b c * Tr d e f = Tr (a + d) (b + e) (c + f) := by
  ext i j
  fin_cases i <;> fin_cases j <;> 
    simp [Tr, Matrix.mul_apply, Fin.sum_univ_four, Matrix.vecHead, Matrix.vecTail, add_comm]

end Spec

namespace OpenGL

variable {K : Type}

/-- An entry of a stored matrix is the entry of the matrix it stands for. -/
theorem apply_eq_toMatrix (M : Mat16 K) (i : Fin 16) : M i = toMatrix M (rowOf i) (colOf i) := by
  fin_cases i <;> rfl

theorem toMatrix_injective (A B : Mat16 K) (h : toMatrix A = toMatrix B) : A = B := by
  funext i
  rw [apply_eq_toMatrix A, apply_eq_toMatrix B, h]

end OpenGL

namespace MatrixModelView

open OpenGL

variable {K : Type} [Field K]

/-- The view matrix `drawSub1` saves, as a product of standard transforms. -/
theorem drawSub1_view_toMatrix (T : Trig K) (s : ModelGL K) (ctx : Context K) :
    toMatrix (drawSub1 T s ctx).1.matrixView =
      1 * Spec.Rz T (-s.cameraAngle 2) * Spec.Ry T (-s.cameraAngle 1) *
        Spec.Rx T (-s.cameraAngle 0) *
        Spec.Tr (-s.cameraPosition 0) (-s.cameraPosition 1) (-s.cameraPosition 2) := by
  rw [drawSub1_fst]
  simp only [toMatrix_mult, toMatrix_identity, toMatrix_rotation_x, toMatrix_rotation_y,
    toMatrix_rotation_z, toMatrix_translation]

/-- The model matrix `drawSub1` saves, as a product of standard transforms. -/
theorem drawSub1_model_toMatrix (T : Trig K) (s : ModelGL K) (ctx : Context K) :
    toMatrix (drawSub1 T s ctx).1.matrixModel =
      1 * Spec.Tr (s.modelPosition 0) (s.modelPosition 1) (s.modelPosition 2) *
        Spec.Rx T (s.modelAngle 0) * Spec.Ry T (s.modelAngle 1) * Spec.Rz T (s.modelAngle 2) := by
  rw [drawSub1_fst]
  simp only [toMatrix_mult, toMatrix_identity, toMatrix_rotation_x, toMatrix_rotation_y,
    toMatrix_rotation_z, toMatrix_translation]

theorem draw_matrices (T : Trig K) (s : ModelGL K) (ctx : Context K) :
    (draw T s ctx).1.matrixView = (drawSub1 T s ctx).1.matrixView ∧
    (draw T s ctx).1.matrixModel = (drawSub1 T s ctx).1.matrixModel ∧
    (draw T s ctx).1.matrixModelView = (drawSub1 T s ctx).1.matrixModelView := by
  rw [draw_fst]
  exact ⟨rfl, rfl, rfl⟩

theorem drawSub1_modelView_toMatrix (T : Trig K) (s : ModelGL K) (ctx : Context K) :
    toMatrix (drawSub1 T s ctx).1.matrixModelView =
      toMatrix (drawSub1 T s ctx).1.matrixView * toMatrix (drawSub1 T s ctx).1.matrixModel := by
  rw [drawSub1_fst]
  exact toMatrix_mult _ _

omit [Field K] in
theorem toMatrix_export (M m : Mat16 K) :
    toMatrix (writeTransposed M m) = (toMatrix M).transpose := by
  ext r c
  exact writeTransposed_apply M m c r

/-- The model-view matrix after a draw with both poses unrotated. -/
theorem unrotated_modelView (T : Trig K) (hc : T.cos 0 = 1) (hs : T.sin 0 = 0)
    (s : ModelGL K) (ctx : Context K) (cx cy cz px py pz : K) :
    toMatrix (draw T (setModelMatrix px py pz 0 0 0 (setViewMatrix cx cy cz 0 0 0 s))
        ctx).1.matrixModelView = Spec.Tr (px - cx) (py - cy) (pz - cz) := by
  rw [(draw_matrices T _ ctx).2.2, drawSub1_modelView_toMatrix, drawSub1_view_toMatrix,
    drawSub1_model_toMatrix]
  have e1 : (setModelMatrix px py pz 0 0 0 (setViewMatrix cx cy cz 0 0 0 s)).cameraAngle =
      ![0, 0, 0] := rfl
  have e2 : (setModelMatrix px py pz 0 0 0 (setViewMatrix cx cy cz 0 0 0 s)).modelAngle =
      ![0, 0, 0] := rfl
  have e3 : (setModelMatrix px py pz 0 0 0 (setViewMatrix cx cy cz 0 0 0 s)).cameraPosition =
      ![cx, cy, cz] := rfl
  have e4 : (setModelMatrix px py pz 0 0 0 (setViewMatrix cx cy cz 0 0 0 s)).modelPosition =
      ![px, py, pz] := rfl
  rw [e1, e2, e3, e4]
  simp only [Matrix.cons_val_zero, Matrix.cons_val_one, Matrix.head_cons, Matrix.cons_val_two,
    Matrix.tail_cons, neg_zero, Spec.Rx_zero T hc hs, Spec.Ry_zero T hc hs,
    Spec.Rz_zero T hc hs, one_mul, mul_one, Spec.Tr_mul_Tr, neg_add_eq_sub]

end MatrixModelView

namespace MatrixModelView

open OpenGL

variable {K : Type} [Field K]

omit [Field K] in
theorem getModelViewMatrix_apply (s : ModelGL K) (m : Mat16 K) (row col : Fin 4) :
    (getModelViewMatrix s m).2 ⟨row.val * 4 + col.val, by omega⟩ =
      toMatrix s.matrixModelView row col :=
  writeTransposed_apply s.matrixModelView m row col

omit [Field K] in
theorem getModelMatrix_apply (s : ModelGL K) (m : Mat16 K) (row col : Fin 4) :
    (getModelMatrix s m).2 ⟨row.val * 4 + col.val, by omega⟩ =
      toMatrix s.matrixModel row col :=
  writeTransposed_apply s.matrixModel m row col

/-- C16: with all six rotation angles zero, after `setViewMatrix`,
`setModelMatrix` and `draw()` the model-view matrix has the identity as its
3x3 rotation block and `p - c` as its translation column, for every camera
position `c` and model position `p`, both as stored and as the row-major array
`getModelViewMatrix` writes; for camera pose (0,0,0,0,0,0) and model pose
(1,0,0,0,0,0) the translation column is (1,0,0) and the rotation block is the
identity. Cosine and sine enter through their values at 0 only. -/
theorem modelView_of_unrotated_poses (T : Trig K) (hc : T.cos 0 = 1) (hs : T.sin 0 = 0)
    (s : ModelGL K) (ctx : Context K) (m : Mat16 K) (cx cy cz px py pz : K) :
    toMatrix (draw T (setModelMatrix px py pz 0 0 0 (setViewMatrix cx cy cz 0 0 0 s))
        ctx).1.matrixModelView =
      !![1, 0, 0, px - cx;
         0, 1, 0, py - cy;
         0, 0, 1, pz - cz;
         0, 0, 0, 1] ∧
    (∀ row col : Fin 4,
      (getModelViewMatrix
          (draw T (setModelMatrix px py pz 0 0 0 (setViewMatrix cx cy cz 0 0 0 s)) ctx).1
          m).2 ⟨row.val * 4 + col.val, by omega⟩ =
        (!![1, 0, 0, px - cx;
            0, 1, 0, py - cy;
            0, 0, 1, pz - cz;
            0, 0, 0, 1] : Matrix (Fin 4) (Fin 4) K) row col) ∧
    toMatrix (draw T (setModelMatrix 1 0 0 0 0 0 (setViewMatrix 0 0 0 0 0 0 s))
        ctx).1.matrixModelView =
      !![1, 0, 0, 1;
         0, 1, 0, 0;
         0, 0, 1, 0;
         0, 0, 0, 1] := by
  refine ⟨unrotated_modelView T hc hs s ctx cx cy cz px py pz, ?_, ?_⟩
  · intro row col
    rw [getModelViewMatrix_apply, unrotated_modelView T hc hs]
    rfl
  · rw [unrotated_modelView T hc hs]
    simp only [sub_zero]
    rfl

/-- Witness of C16: the rational cosine/sine pair, a fresh object, camera at
(1, 2, 3) and model at (5, 7, 11). -/
theorem modelView_of_unrotated_poses_witness :
    ratTrig.cos 0 = 1 ∧ ratTrig.sin 0 = 0 ∧
    toMatrix (draw ratTrig
        (setModelMatrix 5 7 11 0 0 0 (setViewMatrix 1 2 3 0 0 0 (ModelGL.new 0 0 : ModelGL ℚ)))
        (Context.mk MatrixMode.modelview identity [] identity [])).1.matrixModelView =
      !![1, 0, 0, 5 - 1;
         0, 1, 0, 7 - 2;
         0, 0, 1, 11 - 3;
         0, 0, 0, 1] := by
  refine ⟨by norm_num [ratTrig], by norm_num [ratTrig], ?_⟩
  exact (modelView_of_unrotated_poses ratTrig (by norm_num [ratTrig]) (by norm_num [ratTrig])
    (ModelGL.new 0 0 : ModelGL ℚ) (Context.mk MatrixMode.modelview identity [] identity [])
    identity 1 2 3 5 7 11).1

end MatrixModelView

/-! ## Stored matrices between draws -/

namespace MatrixModelView

open OpenGL

variable {K : Type} [Field K]

/-- A call other than `draw` writes none of the three stored matrices. -/
theorem step_matrices (T : Trig K) (w : ModelGL K × Context K) (op : Op K)
    (h : op ≠ Op.draw) :
    (step T w op).1.matrixView = w.1.matrixView ∧
    (step T w op).1.matrixModel = w.1.matrixModel ∧
    (step T w op).1.matrixModelView = w.1.matrixModelView := by
  cases op with
  | draw => exact absurd rfl h
  | setDrawMode mode =>
    simp only [step, setDrawMode]
    split_ifs <;> exact ⟨rfl, rfl, rfl⟩
  | rotateCamera x y =>
    simp only [step, rotateCamera]
    split_ifs <;> exact ⟨rfl, rfl, rfl⟩
  | zoomCamera d =>
    simp only [step, zoomCamera]
    split_ifs <;> exact ⟨rfl, rfl, rfl⟩
  | _ => exact ⟨rfl, rfl, rfl⟩

theorem foldl_matrices (T : Trig K) (ops : List (Op K)) :
    ∀ w : ModelGL K × Context K, (∀ op ∈ ops, op ≠ Op.draw) →
      (ops.foldl (step T) w).1.matrixView = w.1.matrixView ∧
      (ops.foldl (step T) w).1.matrixModel = w.1.matrixModel ∧
      (ops.foldl (step T) w).1.matrixModelView = w.1.matrixModelView := by
  induction ops with
  | nil => intro w _; exact ⟨rfl, rfl, rfl⟩
  | cons op rest ih =>
    intro w h
    have h1 := step_matrices T w op (h op (List.mem_cons_self _ _))
    have h2 := ih (step T w op) (fun o ho => h o (List.mem_cons_of_mem _ ho))
    exact ⟨h2.1.trans h1.1, h2.2.1.trans h1.2.1, h2.2.2.trans h1.2.2⟩

/-- C19: no pose setter writes `matrixView`, `matrixModel` or `matrixModelView`:
after `setViewMatrix`, `setModelMatrix` or a per-component setter each of
`getViewMatrix`, `getModelMatrix`, `getModelViewMatrix` returns the sixteen
values it returned before; the same holds across any sequence of calls that
contains no `draw()`; and on a freshly constructed object, before the first
draw, the three getters return all zeros. -/
theorem setters_keep_matrices (T : Trig K) (s : ModelGL K) (ctx : Context K) (m : Mat16 K)
    (ops : List (Op K)) (hops : ∀ op ∈ ops, op ≠ Op.draw) :
    (∀ (f : ModelGL K → ModelGL K),
      ((∃ x y z a b c, f = setViewMatrix x y z a b c) ∨
        (∃ x y z a b c, f = setModelMatrix x y z a b c) ∨
        (∃ i v, f = setCameraPos i v) ∨ (∃ i v, f = setCameraAng i v) ∨
        (∃ i v, f = setModelPos i v) ∨ (∃ i v, f = setModelAng i v)) →
      (getViewMatrix (f s) m).2 = (getViewMatrix s m).2 ∧
      (getModelMatrix (f s) m).2 = (getModelMatrix s m).2 ∧
      (getModelViewMatrix (f s) m).2 = (getModelViewMatrix s m).2) ∧
    ((getViewMatrix (ops.foldl (step T) (s, ctx)).1 m).2 = (getViewMatrix s m).2 ∧
      (getModelMatrix (ops.foldl (step T) (s, ctx)).1 m).2 = (getModelMatrix s m).2 ∧
      (getModelViewMatrix (ops.foldl (step T) (s, ctx)).1 m).2 =
        (getModelViewMatrix s m).2) ∧
    (∀ mouseX0 mouseY0 : Int,
      (getViewMatrix (ops.foldl (step T) (ModelGL.new mouseX0 mouseY0, ctx)).1 m).2 =
        (fun _ => 0) ∧
      (getModelMatrix (ops.foldl (step T) (ModelGL.new mouseX0 mouseY0, ctx)).1 m).2 =
        (fun _ => 0) ∧
      (getModelViewMatrix (ops.foldl (step T) (ModelGL.new mouseX0 mouseY0, ctx)).1 m).2 =
        (fun _ => 0)) := by
  have hzero : writeTransposed (fun _ => (0 : K)) m = fun _ => 0 := by
    funext i
    exact writeTransposed_eq _ m i
  refine ⟨?_, ?_, ?_⟩
  · rintro f (⟨x, y, z, a, b, c, rfl⟩ | ⟨x, y, z, a, b, c, rfl⟩ | ⟨i, v, rfl⟩ | ⟨i, v, rfl⟩ |
      ⟨i, v, rfl⟩ | ⟨i, v, rfl⟩) <;> exact ⟨rfl, rfl, rfl⟩
  · have h := foldl_matrices T ops (s, ctx) hops
    simp only [getViewMatrix, getModelMatrix, getModelViewMatrix]
    rw [h.1, h.2.1, h.2.2]
    exact ⟨rfl, rfl, rfl⟩
  · intro mouseX0 mouseY0
    have h := foldl_matrices T ops (ModelGL.new mouseX0 mouseY0, ctx) hops
    simp only [getViewMatrix, getModelMatrix, getModelViewMatrix]
    rw [h.1, h.2.1, h.2.2]
    exact ⟨hzero, hzero, hzero⟩

/-- Witness of C19: a fresh object over the rationals and the call sequence
`setViewMatrix(1,2,3,10,20,30)`, `setModelX(5)`, `rotateCamera(7, 8)`. -/
theorem setters_keep_matrices_witness :
    (∀ op ∈ [Op.setViewMatrix 1 2 3 10 20 30, Op.setModelPos 0 5, Op.rotateCamera 7 8],
      op ≠ (Op.draw : Op ℚ)) ∧
    (getViewMatrix
      ([Op.setViewMatrix 1 2 3 10 20 30, Op.setModelPos 0 5, Op.rotateCamera 7 8].foldl
        (step ratTrig)
        (ModelGL.new 3 4, Context.mk MatrixMode.modelview identity [] identity [])).1
      identity).2 = (fun _ => 0) := by
  have h : ∀ op ∈ [Op.setViewMatrix 1 2 3 10 20 30, Op.setModelPos 0 5, Op.rotateCamera 7 8],
      op ≠ (Op.draw : Op ℚ) := by
    intro op hop
    simp only [List.mem_cons, List.mem_singleton, List.not_mem_nil, or_false] at hop
    rcases hop with rfl | rfl | rfl <;> exact fun h => Op.noConfusion h
  exact ⟨h, ((setters_keep_matrices ratTrig (ModelGL.new 3 4)
    (Context.mk MatrixMode.modelview identity [] identity []) identity _ h).2.2 3 4).1⟩

end MatrixModelView

namespace Spec

open OpenGL

variable {K : Type} [Field K]

/-- Last column and last row of `T(x,y,z) * Rx(a) * Ry(b) * Rz(c)`. -/
theorem model_product_entries (T : Trig K) (x y z a b c : K) (P : Matrix (Fin 4) (Fin 4) K)
    (hP : P = 1 * Tr x y z * Rx T a * Ry T b * Rz T c) :
    P 0 3 = x ∧ P 1 3 = y ∧ P 2 3 = z ∧ P 3 0 = 0 ∧ P 3 1 = 0 ∧ P 3 2 = 0 ∧ P 3 3 = 1 := by
  subst hP
  rw [one_mul]
  refine ⟨?_, ?_, ?_, ?_, ?_, ?_, ?_⟩ <;>
    simp [Matrix.mul_apply, Fin.sum_univ_four, Tr, Rx, Ry, Rz, Matrix.vecHead, Matrix.vecTail]

end Spec

namespace MatrixModelView

open OpenGL

variable {K : Type} [Field K]

/-- C20: for every model pose, after `draw()` the stored model matrix has the
model position in elements 12, 13, 14 and (0, 0, 0, 1) in elements 3, 7, 11, 15;
the array `getModelMatrix` writes carries the translation (x, y, z) at indices
3, 7, 11 and has last row (0, 0, 0, 1) at indices 12..15. -/
theorem model_matrix_translation (T : Trig K) (s : ModelGL K) (ctx : Context K) (m : Mat16 K)
    (x y z rx ry rz : K) :
    ((draw T (setModelMatrix x y z rx ry rz s) ctx).1.matrixModel 12 = x ∧
      (draw T (setModelMatrix x y z rx ry rz s) ctx).1.matrixModel 13 = y ∧
      (draw T (setModelMatrix x y z rx ry rz s) ctx).1.matrixModel 14 = z ∧
      (draw T (setModelMatrix x y z rx ry rz s) ctx).1.matrixModel 3 = 0 ∧
      (draw T (setModelMatrix x y z rx ry rz s) ctx).1.matrixModel 7 = 0 ∧
      (draw T (setModelMatrix x y z rx ry rz s) ctx).1.matrixModel 11 = 0 ∧
      (draw T (setModelMatrix x y z rx ry rz s) ctx).1.matrixModel 15 = 1) ∧
    ((getModelMatrix (draw T (setModelMatrix x y z rx ry rz s) ctx).1 m).2 3 = x ∧
      (getModelMatrix (draw T (setModelMatrix x y z rx ry rz s) ctx).1 m).2 7 = y ∧
      (getModelMatrix (draw T (setModelMatrix x y z rx ry rz s) ctx).1 m).2 11 = z ∧
      (getModelMatrix (draw T (setModelMatrix x y z rx ry rz s) ctx).1 m).2 12 = 0 ∧
      (getModelMatrix (draw T (setModelMatrix x y z rx ry rz s) ctx).1 m).2 13 = 0 ∧
      (getModelMatrix (draw T (setModelMatrix x y z rx ry rz s) ctx).1 m).2 14 = 0 ∧
      (getModelMatrix (draw T (setModelMatrix x y z rx ry rz s) ctx).1 m).2 15 = 1) := by
  have hM : toMatrix (draw T (setModelMatrix x y z rx ry rz s) ctx).1.matrixModel =
      1 * Spec.Tr x y z * Spec.Rx T rx * Spec.Ry T ry * Spec.Rz T rz := by
    rw [(draw_matrices T _ ctx).2.1, drawSub1_model_toMatrix]
    rfl
  have hE := Spec.model_product_entries T x y z rx ry rz _ hM
  obtain ⟨h03, h13, h23, h30, h31, h32, h33⟩ := hE
  generalize (draw T (setModelMatrix x y z rx ry rz s) ctx).1 = s1 at *
  have hst : s1.matrixModel 12 = x ∧ s1.matrixModel 13 = y ∧ s1.matrixModel 14 = z ∧
      s1.matrixModel 3 = 0 ∧ s1.matrixModel 7 = 0 ∧ s1.matrixModel 11 = 0 ∧
      s1.matrixModel 15 = 1 := ⟨h03, h13, h23, h30, h31, h32, h33⟩
  refine ⟨hst, ?_⟩
  obtain ⟨e12, e13, e14, e3, e7, e11, e15⟩ := hst
  refine ⟨?_, ?_, ?_, ?_, ?_, ?_, ?_⟩
  · exact (writeTransposed_eq _ m 3).trans e12
  · exact (writeTransposed_eq _ m 7).trans e13
  · exact (writeTransposed_eq _ m 11).trans e14
  · exact (writeTransposed_eq _ m 12).trans e3
  · exact (writeTransposed_eq _ m 13).trans e7
  · exact (writeTransposed_eq _ m 14).trans e11
  · exact (writeTransposed_eq _ m 15).trans e15

end MatrixModelView

/-! ## Pending-change flags -/

namespace MatrixModelView

open OpenGL

variable {K : Type} [Field K]

/-- C21, as the code has it: `setWindowSize` sets `windowSizeChanged`;
`setDrawMode` leaves `drawMode` equal to the mode passed and sets
`drawModeChanged` when that mode differs from the stored one (otherwise the flag
keeps its value); a set flag stays set under every call other than `draw()`; and
after every `draw()` both flags are false. -/
theorem pending_flags (T : Trig K) (s : ModelGL K) (ctx : Context K) (width height mode : Int)
    (op : Op K) :
    (setWindowSize width height s).windowSizeChanged = true ∧
    (setDrawMode mode s).drawModeChanged =
      (if s.drawMode ≠ mode then true else s.drawModeChanged) ∧
    (setDrawMode mode s).drawMode = mode ∧
    (op ≠ Op.draw → s.windowSizeChanged = true →
      (step T (s, ctx) op).1.windowSizeChanged = true) ∧
    (op ≠ Op.draw → s.drawModeChanged = true →
      (step T (s, ctx) op).1.drawModeChanged = true) ∧
    (draw T s ctx).1.windowSizeChanged = false ∧
    (draw T s ctx).1.drawModeChanged = false := by
  refine ⟨rfl, ?_, ?_, ?_, ?_, ?_, ?_⟩
  · unfold setDrawMode
    split_ifs <;> rfl
  · unfold setDrawMode
    split_ifs with h
    · rfl
    · exact not_not.1 h
  · intro hop hs
    cases op with
    | draw => exact absurd rfl hop
    | setDrawMode m2 =>
      simp only [step, setDrawMode]
      split_ifs <;> exact hs
    | rotateCamera x y =>
      simp only [step, rotateCamera]
      split_ifs <;> exact hs
    | zoomCamera d =>
      simp only [step, zoomCamera]
      split_ifs <;> exact hs
    | setWindowSize w h => rfl
    | _ => exact hs
  · intro hop hs
    cases op with
    | draw => exact absurd rfl hop
    | setDrawMode m2 =>
      simp only [step, setDrawMode]
      split_ifs
      · rfl
      · exact hs
    | rotateCamera x y =>
      simp only [step, rotateCamera]
      split_ifs <;> exact hs
    | zoomCamera d =>
      simp only [step, zoomCamera]
      split_ifs <;> exact hs
    | _ => exact hs
  · rw [draw_fst]
  · rw [draw_fst]

/-- C21 fails as stated: on a fresh object (draw mode 0, flag clear)
`setDrawMode(0)` leaves `drawModeChanged` false. -/
theorem pending_flags_counterexample :
    ¬ ((setDrawMode 0 (ModelGL.new 0 0 : ModelGL ℚ)).drawModeChanged = true) :=
  fun h => Bool.false_ne_true h

/-- Witness of C21: a fresh object over the rationals after `setWindowSize(640,
480)`; the call `setModelX(5)` keeps the flag set. -/
theorem pending_flags_witness :
    (Op.setModelPos 0 5 : Op ℚ) ≠ Op.draw ∧
    (setWindowSize 640 480 (ModelGL.new 0 0 : ModelGL ℚ)).windowSizeChanged = true ∧
    (step ratTrig (setWindowSize 640 480 (ModelGL.new 0 0 : ModelGL ℚ),
      Context.mk MatrixMode.modelview identity [] identity [])
      (Op.setModelPos 0 5)).1.windowSizeChanged = true :=
  ⟨fun h => Op.noConfusion h, rfl,
    (pending_flags ratTrig (setWindowSize 640 480 (ModelGL.new 0 0 : ModelGL ℚ))
      (Context.mk MatrixMode.modelview identity [] identity []) 0 0 0
      (Op.setModelPos 0 5)).2.2.2.1 (fun h => Op.noConfusion h) rfl⟩

end MatrixModelView

/-! ## Window creation -/

namespace Win

/-- C24 at the failing input: with the rendering context created and no thread
started (`_beginthreadex` returns 0), `create` returns 0 and leaves `loopFlag`
as it was (false on a new controller); it returns -1 only when the creation of
the rendering context fails, and with a thread started it returns 0 with
`loopFlag` set. -/
theorem create_status (tid handle : Nat) (c : ControllerGL) :
    (ControllerGL.create true (0, tid) c).2 = 0 ∧
    (ControllerGL.create true (0, tid) c).1.loopFlag = c.loopFlag ∧
    (ControllerGL.create true (0, tid) ControllerGL.new).1.loopFlag = false ∧
    (ControllerGL.create false (handle, tid) c).2 = -1 ∧
    (ControllerGL.create true (handle + 1, tid) c).2 = 0 ∧
    (ControllerGL.create true (handle + 1, tid) c).1.loopFlag = true :=
  ⟨rfl, rfl, rfl, rfl, rfl, rfl⟩

end Win

/-! ## Sequences of moves, shared reference field, exact masks, frame -/

namespace MatrixModelView

open OpenGL

variable {K : Type} [Field K]

/-- Invariant of a run of `rotateCamera` calls under a set left latch. -/
theorem rotateCamera_foldl (moves : List (Int × Int)) :
    ∀ s : ModelGL K, s.mouseLeftDown = true →
      (moves.foldl (fun s q => rotateCamera q.1 q.2 s) s).mouseLeftDown = true ∧
      (moves.foldl (fun s q => rotateCamera q.1 q.2 s) s).cameraAngleY -
          (((moves.foldl (fun s q => rotateCamera q.1 q.2 s) s).mouseX : Int) : K) =
        s.cameraAngleY - ((s.mouseX : Int) : K) ∧
      (moves.foldl (fun s q => rotateCamera q.1 q.2 s) s).cameraAngleX -
          (((moves.foldl (fun s q => rotateCamera q.1 q.2 s) s).mouseY : Int) : K) =
        s.cameraAngleX - ((s.mouseY : Int) : K) := by
  induction moves with
  | nil => intro s hs; exact ⟨hs, rfl, rfl⟩
  | cons q rest ih =>
    intro s hs
    have h1 : (rotateCamera q.1 q.2 s).mouseLeftDown = true := by
      simp [rotateCamera, hs]
    have h2 := ih (rotateCamera q.1 q.2 s) h1
    refine ⟨h2.1, h2.2.1.trans ?_, h2.2.2.trans ?_⟩
    · simp only [rotateCamera, hs, if_true]
      push_cast
      ring
    · simp only [rotateCamera, hs, if_true]
      push_cast
      ring

end MatrixModelView

namespace MatrixProjection

open OpenGL

variable {K : Type} [Field K]

/-- Invariant of a run of `rotateCamera` calls of the projection demo under a
set left latch. -/
theorem rotateCamera_foldl_projection (moves : List (Int × Int)) :
    ∀ s : ModelGL K, s.mouseLeftDown = true →
      (moves.foldl (fun s q => rotateCamera q.1 q.2 s) s).mouseLeftDown = true ∧
      (moves.foldl (fun s q => rotateCamera q.1 q.2 s) s).cameraAngleY -
          (((moves.foldl (fun s q => rotateCamera q.1 q.2 s) s).mouseX : Int) : K) =
        s.cameraAngleY - ((s.mouseX : Int) : K) ∧
      (moves.foldl (fun s q => rotateCamera q.1 q.2 s) s).cameraAngleX -
          (((moves.foldl (fun s q => rotateCamera q.1 q.2 s) s).mouseY : Int) : K) =
        s.cameraAngleX - ((s.mouseY : Int) : K) := by
  induction moves with
  | nil => intro s hs; exact ⟨hs, rfl, rfl⟩
  | cons q rest ih =>
    intro s hs
    have h1 : (rotateCamera q.1 q.2 s).mouseLeftDown = true := by
      simp [rotateCamera, hs]
    have h2 := ih (rotateCamera q.1 q.2 s) h1
    refine ⟨h2.1, h2.2.1.trans ?_, h2.2.2.trans ?_⟩
    · simp only [rotateCamera, hs, if_true]
      push_cast
      ring
    · simp only [rotateCamera, hs, if_true]
      push_cast
      ring

end MatrixProjection

namespace MatrixModelView

open OpenGL

variable {K : Type} [Field K]

/-- C25: for every non-empty sequence of pointer moves applied by `rotateCamera`
while the left latch stays set (written as any sequence followed by a last move
to `(xk, yk)`), starting from last pointer `(mouseX, mouseY)`, the final orbit
heading is the initial heading plus `xk - mouseX` and the final pitch is the
initial pitch plus `yk - mouseY`, in both demos: only the end points count, and
no angle is wrapped or clamped. -/
theorem rotateCamera_moves (s : ModelGL K) (p : MatrixProjection.ModelGL K)
    (hs : s.mouseLeftDown = true) (hp : p.mouseLeftDown = true)
    (moves : List (Int × Int)) (xk yk : Int) :
    (((moves ++ [(xk, yk)]).foldl (fun s q => rotateCamera q.1 q.2 s) s).cameraAngleY =
        s.cameraAngleY + ((xk - s.mouseX : Int) : K) ∧
      ((moves ++ [(xk, yk)]).foldl (fun s q => rotateCamera q.1 q.2 s) s).cameraAngleX =
        s.cameraAngleX + ((yk - s.mouseY : Int) : K)) ∧
    (((moves ++ [(xk, yk)]).foldl
          (fun s q => MatrixProjection.rotateCamera q.1 q.2 s) p).cameraAngleY =
        p.cameraAngleY + ((xk - p.mouseX : Int) : K) ∧
      ((moves ++ [(xk, yk)]).foldl
          (fun s q => MatrixProjection.rotateCamera q.1 q.2 s) p).cameraAngleX =
        p.cameraAngleX + ((yk - p.mouseY : Int) : K)) := by
  constructor
  · obtain ⟨h1, h2, h3⟩ := rotateCamera_foldl moves s hs
    rw [List.foldl_append]
    generalize moves.foldl (fun s q => rotateCamera q.1 q.2 s) s = s1 at h1 h2 h3
    simp only [List.foldl_cons, List.foldl_nil, rotateCamera, h1, if_true]
    push_cast at h2 h3 ⊢
    constructor
    · linear_combination h2
    · linear_combination h3
  · obtain ⟨h1, h2, h3⟩ := MatrixProjection.rotateCamera_foldl_projection moves p hp
    rw [List.foldl_append]
    generalize moves.foldl (fun s q => MatrixProjection.rotateCamera q.1 q.2 s) p = s1
      at h1 h2 h3
    simp only [List.foldl_cons, List.foldl_nil, MatrixProjection.rotateCamera, h1, if_true]
    push_cast at h2 h3 ⊢
    constructor
    · linear_combination h2
    · linear_combination h3

/-- Witness of C25: objects of both demos over the rationals with the left latch
set and last pointer (3, 4); moves to (100, 50), (500, -20), then (1000, 7). -/
theorem rotateCamera_moves_witness :
    (setMouseLeft true (ModelGL.new 3 4 : ModelGL ℚ)).mouseLeftDown = true ∧
    ((([(100, 50), (500, -20)] : List (Int × Int)) ++ [(1000, 7)]).foldl
        (fun (s : ModelGL ℚ) (q : Int × Int) => rotateCamera q.1 q.2 s)
        (setMouseLeft true (ModelGL.new 3 4 : ModelGL ℚ))).cameraAngleY =
      (setMouseLeft true (ModelGL.new 3 4 : ModelGL ℚ)).cameraAngleY +
        ((1000 - (setMouseLeft true (ModelGL.new 3 4 : ModelGL ℚ)).mouseX : Int) : ℚ) :=
  ⟨rfl,
    (rotateCamera_moves (setMouseLeft true (ModelGL.new 3 4 : ModelGL ℚ))
      { MatrixProjection.ModelGL.new 3 4 (fun _ => ⟨0, 0, 0⟩) (fun _ => ⟨0, 0, 0⟩) with
        mouseLeftDown := true } rfl rfl [(100, 50), (500, -20)] 1000 7).1.1⟩

/-- C26: orbit and zoom share the reference field `mouseY`. With both latches
set, `rotateCamera(x, y)` followed by `zoomCamera(y)` leaves `cameraDistance` as
it was, whatever the previous pointer y; `zoomCamera(y)` followed by
`rotateCamera(x, y)` changes the distance by `(y - mouseY) * 0.05` and leaves the
pitch `cameraAngleX` as it was. -/
theorem orbit_zoom_share_mouseY (s : ModelGL K) (x y : Int)
    (hl : s.mouseLeftDown = true) (hr : s.mouseRightDown = true) :
    (zoomCamera y (rotateCamera x y s)).cameraDistance = s.cameraDistance ∧
    (rotateCamera x y (zoomCamera y s)).cameraDistance =
      s.cameraDistance + ((y - s.mouseY : Int) : K) * (5 / 100) ∧
    (rotateCamera x y (zoomCamera y s)).cameraAngleX = s.cameraAngleX := by
  refine ⟨?_, ?_, ?_⟩
  · simp [zoomCamera, rotateCamera, hl, hr]
  · simp [zoomCamera, rotateCamera, hl, hr]
  · simp [zoomCamera, rotateCamera, hl, hr]

/-- Witness of C26: a fresh object over the rationals with both latches set and
last pointer (3, 4), event position (10, 20). -/
theorem orbit_zoom_share_mouseY_witness :
    (setMouseRight true (setMouseLeft true (ModelGL.new 3 4 : ModelGL ℚ))).mouseLeftDown = true ∧
    (setMouseRight true (setMouseLeft true (ModelGL.new 3 4 : ModelGL ℚ))).mouseRightDown =
      true ∧
    (zoomCamera 20 (rotateCamera 10 20
      (setMouseRight true (setMouseLeft true (ModelGL.new 3 4 : ModelGL ℚ))))).cameraDistance =
      (setMouseRight true (setMouseLeft true (ModelGL.new 3 4 : ModelGL ℚ))).cameraDistance :=
  ⟨rfl, rfl,
    (orbit_zoom_share_mouseY
      (setMouseRight true (setMouseLeft true (ModelGL.new 3 4 : ModelGL ℚ))) 10 20 rfl rfl).1⟩

/-- C28: `mouseMove` applies the orbit update exactly when the state mask equals
`MK_LBUTTON` and the zoom update exactly when it equals `MK_RBUTTON`; under any
other mask (such as `MK_LBUTTON | MK_RBUTTON = 3`, or a button with the Control
key, 9) the object is unchanged even with both latches set, and no move event
applies both updates. -/
theorem mouseMove_exact_mask (s : ModelGL K) (state : Nat) (x y : Int) :
    (Win.ControllerGL.mouseMove modelCalls state x y s).1 =
      (if state = Win.MK_LBUTTON then rotateCamera x y s
        else if state = Win.MK_RBUTTON then zoomCamera y s else s) ∧
    (Win.ControllerGL.mouseMove modelCalls 3 x y s).1 = s ∧
    (Win.ControllerGL.mouseMove modelCalls 9 x y s).1 = s ∧
    (Win.ControllerGL.mouseMove modelCalls 10 x y s).1 = s ∧
    ((state ≠ Win.MK_LBUTTON ∧ state ≠ Win.MK_RBUTTON) →
      (Win.ControllerGL.mouseMove modelCalls state x y s).1 = s) := by
  have h : (Win.ControllerGL.mouseMove modelCalls state x y s).1 =
      (if state = Win.MK_LBUTTON then rotateCamera x y s
        else if state = Win.MK_RBUTTON then zoomCamera y s else s) := by
    simp only [Win.ControllerGL.mouseMove, modelCalls]
    by_cases hL : state = Win.MK_LBUTTON
    · have hR : ¬ state = Win.MK_RBUTTON := by
        rw [hL]
        decide
      simp [hL, hR]
      intro h2
      exact absurd h2 (by decide)
    · simp [hL]
  refine ⟨h, rfl, rfl, rfl, ?_⟩
  rintro ⟨hL, hR⟩
  rw [h, if_neg hL, if_neg hR]

/-- Witness of C28: a fresh object over the rationals with both latches set, a
move to (10, 20) under the mask 3. -/
theorem mouseMove_exact_mask_witness :
    ((3 : Nat) ≠ Win.MK_LBUTTON ∧ (3 : Nat) ≠ Win.MK_RBUTTON) ∧
    (Win.ControllerGL.mouseMove modelCalls 3 10 20
      (setMouseRight true (setMouseLeft true (ModelGL.new 3 4 : ModelGL ℚ)))).1 =
      setMouseRight true (setMouseLeft true (ModelGL.new 3 4 : ModelGL ℚ)) :=
  ⟨⟨by decide, by decide⟩,
    (mouseMove_exact_mask (setMouseRight true (setMouseLeft true (ModelGL.new 3 4 : ModelGL ℚ)))
      3 10 20).2.2.2.2 ⟨by decide, by decide⟩⟩

/-- C30: for every latch state and every input, `rotateCamera` and `zoomCamera`
assign nothing but `cameraAngleX`, `cameraAngleY`, `cameraDistance`, `mouseX` and
`mouseY`: the camera pose, the model pose, the three stored matrices and all
other members stay as they were; and every mouse handler of the controller
leaves the camera pose, the model pose and the three stored matrices as they
were. -/
theorem mouse_calls_frame (s : ModelGL K) (state : Nat) (x y : Int) :
    (∀ f : ModelGL K → ModelGL K, (f = rotateCamera x y ∨ f = zoomCamera y) →
      f s = { s with
        cameraAngleX := (f s).cameraAngleX, cameraAngleY := (f s).cameraAngleY,
        cameraDistance := (f s).cameraDistance,
        mouseX := (f s).mouseX, mouseY := (f s).mouseY }) ∧
    (∀ h : Win.ModelCalls (ModelGL K) → Nat → Int → Int → ModelGL K → ModelGL K × Int,
      (h = Win.ControllerGL.lButtonDown ∨ h = Win.ControllerGL.lButtonUp ∨
        h = Win.ControllerGL.rButtonDown ∨ h = Win.ControllerGL.rButtonUp ∨
        h = Win.ControllerGL.mouseMove) →
      (h modelCalls state x y s).1.cameraPosition = s.cameraPosition ∧
      (h modelCalls state x y s).1.cameraAngle = s.cameraAngle ∧
      (h modelCalls state x y s).1.modelPosition = s.modelPosition ∧
      (h modelCalls state x y s).1.modelAngle = s.modelAngle ∧
      (h modelCalls state x y s).1.matrixView = s.matrixView ∧
      (h modelCalls state x y s).1.matrixModel = s.matrixModel ∧
      (h modelCalls state x y s).1.matrixModelView = s.matrixModelView) := by
  constructor
  · rintro f (rfl | rfl)
    · unfold rotateCamera
      split_ifs <;> rfl
    · unfold zoomCamera
      split_ifs <;> rfl
  · rintro h (rfl | rfl | rfl | rfl | rfl)
    · simp only [Win.ControllerGL.lButtonDown, modelCalls]
      split_ifs <;> exact ⟨rfl, rfl, rfl, rfl, rfl, rfl, rfl⟩
    · exact ⟨rfl, rfl, rfl, rfl, rfl, rfl, rfl⟩
    · simp only [Win.ControllerGL.rButtonDown, modelCalls]
      split_ifs <;> exact ⟨rfl, rfl, rfl, rfl, rfl, rfl, rfl⟩
    · exact ⟨rfl, rfl, rfl, rfl, rfl, rfl, rfl⟩
    · simp only [Win.ControllerGL.mouseMove, modelCalls, rotateCamera, zoomCamera]
      split_ifs <;> exact ⟨rfl, rfl, rfl, rfl, rfl, rfl, rfl⟩

end MatrixModelView

/-! ## The two ways to build the symmetric frustum -/

namespace MatrixProjection

open OpenGL Vectors

variable {K : Type} [Field K] [DecidableEq K]

end MatrixProjection

/-! ## The projection stack during a draw, and the aspect-ratio divisor -/

namespace OpenGL

variable {K : Type}

theorem projection_setCurrent (ctx : Context K) (M : Mat16 K)
    (h : ctx.matrixMode = .modelview) : (ctx.setCurrent M).projection = ctx.projection := by
  unfold Context.setCurrent
  simp [h]

theorem projection_setCurrent_of_projection (ctx : Context K) (M : Mat16 K)
    (h : ctx.matrixMode = .projection) : (ctx.setCurrent M).projection = M := by
  unfold Context.setCurrent
  simp [h]

theorem projection_glPushMatrix (ctx : Context K) (h : ctx.matrixMode = .modelview) :
    (glPushMatrix ctx).projection = ctx.projection := by
  unfold glPushMatrix
  simp [h]

theorem projection_glPopMatrix (ctx : Context K) (h : ctx.matrixMode = .modelview) :
    (glPopMatrix ctx).projection = ctx.projection := by
  unfold glPopMatrix
  simp only [h]
  cases ctx.modelviewStack <;> rfl

theorem matrixMode_glPopMatrix (ctx : Context K) :
    (glPopMatrix ctx).matrixMode = ctx.matrixMode := by
  unfold glPopMatrix
  cases h : ctx.matrixMode <;> simp only [h]
  · cases ctx.modelviewStack <;> simp [h]
  · cases ctx.projectionStack <;> simp [h]

variable [Field K]

theorem projection_glLoadIdentity (ctx : Context K) (h : ctx.matrixMode = .modelview) :
    (glLoadIdentity ctx).projection = ctx.projection := projection_setCurrent _ _ h

theorem projection_glRotatef (T : Trig K) (a x y z : K) (ctx : Context K)
    (h : ctx.matrixMode = .modelview) :
    (glRotatef T a x y z ctx).projection = ctx.projection := projection_setCurrent _ _ h

theorem projection_glTranslatef (x y z : K) (ctx : Context K)
    (h : ctx.matrixMode = .modelview) :
    (glTranslatef x y z ctx).projection = ctx.projection := projection_setCurrent _ _ h

omit [Field K] in
theorem projection_glLoadMatrixf (m : Mat16 K) (ctx : Context K)
    (h : ctx.matrixMode = .modelview) :
    (glLoadMatrixf m ctx).projection = ctx.projection := projection_setCurrent _ _ h

theorem projection_glMultMatrixf (m : Mat16 K) (ctx : Context K)
    (h : ctx.matrixMode = .modelview) :
    (glMultMatrixf m ctx).projection = ctx.projection := projection_setCurrent _ _ h

end OpenGL

namespace MatrixModelView

open OpenGL

variable {K : Type} [Field K]

/-- The projection matrix `setViewportSub` leaves: the perspective matrix with
aspect ratio `width / height`. -/
theorem projection_setViewportSub (T : Trig K) (x y w h : Int) (n f : K) (ctx : Context K) :
    (setViewportSub T x y w h n f ctx).projection =
      mult identity (perspective T FOV_Y ((w : K) / (h : K)) n f) := by
  have h1 : (glMatrixMode .projection ctx).matrixMode = .projection := rfl
  have h2 : (glLoadIdentity (glMatrixMode .projection ctx)).matrixMode = .projection := by
    rw [matrixMode_glLoadIdentity, h1]
  have h3 : (glLoadIdentity (glMatrixMode .projection ctx)).projection = identity :=
    projection_setCurrent_of_projection _ _ h1
  have h4 : (glLoadIdentity (glMatrixMode .projection ctx)).current = identity := by
    unfold Context.current
    simp only [h2]
    exact h3
  have h5 : (gluPerspective T FOV_Y ((w : K) / (h : K)) n f
      (glLoadIdentity (glMatrixMode .projection ctx))).projection =
      mult identity (perspective T FOV_Y ((w : K) / (h : K)) n f) := by
    unfold gluPerspective
    rw [projection_setCurrent_of_projection _ _ h2, h4]
  unfold setViewportSub
  simp only []
  rw [projection_glLoadIdentity _ rfl]
  exact h5

theorem subViewportHeight_ne_zero_iff (h : Int) : Int.tdiv h 2 ≠ 0 ↔ 2 ≤ |h| := by
  rcases le_or_lt 0 h with hh | hh
  · rw [Int.tdiv_eq_ediv hh (by norm_num), abs_of_nonneg hh]
    omega
  · have e : Int.tdiv h 2 = -((-h) / 2) := by
      rw [← Int.tdiv_eq_ediv (by omega) (by norm_num), Int.neg_tdiv, neg_neg]
    rw [e, abs_of_neg hh]
    omega

/-- C29: the divisor of the aspect ratio that `setViewportSub` computes during
`draw()` is `windowHeight/2` under truncating integer division (shown on the
projection matrix `drawSub1` leaves behind); it is non-zero exactly when
`|windowHeight| ≥ 2`; window heights 0 and 1, and the height 0 the constructor
sets, make the divisor zero. -/
theorem subViewport_divisor (T : Trig K) (s : ModelGL K) (ctx : Context K)
    (width mouseX0 mouseY0 : Int) :
    (drawSub1 T s ctx).2.projection =
      mult identity (perspective T FOV_Y
        ((s.windowWidth : K) / ((subViewportHeight s : Int) : K)) 1 10) ∧
    (subViewportHeight s ≠ 0 ↔ 2 ≤ |s.windowHeight|) ∧
    subViewportHeight (setWindowSize width 0 s) = 0 ∧
    subViewportHeight (setWindowSize width 1 s) = 0 ∧
    subViewportHeight (setWindowSize width (-1) s) = 0 ∧
    subViewportHeight (setWindowSize width 2 s) = 1 ∧
    subViewportHeight (ModelGL.new mouseX0 mouseY0 : ModelGL K) = 0 := by
  refine ⟨?_, subViewportHeight_ne_zero_iff s.windowHeight, rfl, rfl, rfl, rfl, rfl⟩
  have h1 := matrixMode_setViewportSub T 0 (Int.tdiv s.windowHeight 2) s.windowWidth
    (Int.tdiv s.windowHeight 2) 1 10 ctx
  have h2 := projection_setViewportSub T 0 (Int.tdiv s.windowHeight 2) s.windowWidth
    (Int.tdiv s.windowHeight 2) 1 10 ctx
  unfold subViewportHeight
  rw [← h2]
  simp [drawSub1, projection_glPopMatrix, projection_glPushMatrix, projection_glLoadIdentity,
    projection_glRotatef, projection_glTranslatef, projection_glLoadMatrixf,
    projection_glMultMatrixf, matrixMode_glLoadIdentity, matrixMode_glLoadMatrixf,
    matrixMode_glMultMatrixf, matrixMode_glRotatef, matrixMode_glTranslatef,
    matrixMode_glPushMatrix, h1]

end MatrixModelView

/-! ## The view matrix as the inverse of the camera transform -/

namespace Spec

open OpenGL

variable {K : Type} [Field K]

theorem Rx_mul_neg (T : Trig K) (hp : ∀ a, T.cos a * T.cos a + T.sin a * T.sin a = 1)
    (hc : ∀ a, T.cos (-a) = T.cos a) (hs : ∀ a, T.sin (-a) = -T.sin a) (a : K) :
    Rx T a * Rx T (-a) = 1 := by
  have h := hp a
  ext i j
  fin_cases i <;> fin_cases j <;>
    simp [Rx, hc, hs, Matrix.mul_apply, Fin.sum_univ_four, Matrix.one_apply, Matrix.vecHead,
      Matrix.vecTail] <;> first | ring1 | linear_combination h

theorem Ry_mul_neg (T : Trig K) (hp : ∀ a, T.cos a * T.cos a + T.sin a * T.sin a = 1)
    (hc : ∀ a, T.cos (-a) = T.cos a) (hs : ∀ a, T.sin (-a) = -T.sin a) (a : K) :
    Ry T a * Ry T (-a) = 1 := by
  have h := hp a
  ext i j
  fin_cases i <;> fin_cases j <;>
    simp [Ry, hc, hs, Matrix.mul_apply, Fin.sum_univ_four, Matrix.one_apply, Matrix.vecHead,
      Matrix.vecTail] <;> first | ring1 | linear_combination h

theorem Rz_mul_neg (T : Trig K) (hp : ∀ a, T.cos a * T.cos a + T.sin a * T.sin a = 1)
    (hc : ∀ a, T.cos (-a) = T.cos a) (hs : ∀ a, T.sin (-a) = -T.sin a) (a : K) :
    Rz T a * Rz T (-a) = 1 := by
  have h := hp a
  ext i j
  fin_cases i <;> fin_cases j <;>
    simp [Rz, hc, hs, Matrix.mul_apply, Fin.sum_univ_four, Matrix.one_apply, Matrix.vecHead,
      Matrix.vecTail] <;> first | ring1 | linear_combination h

theorem Tr_zero : Tr (0 : K) 0 0 = 1 := by
  ext i j
  fin_cases i <;> fin_cases j <;> simp [Tr, Matrix.one_apply, Matrix.vecHead, Matrix.vecTail]

theorem Tr_mul_neg (x y z : K) : Tr x y z * Tr (-x) (-y) (-z) = 1 := by
  rw [Tr_mul_Tr, add_neg_cancel, add_neg_cancel, add_neg_cancel, Tr_zero]

theorem mul_cancel_left (X Y Z : Matrix (Fin 4) (Fin 4) K) (h : X * Y = 1) :
    X * (Y * Z) = Z := by
  rw [← Matrix.mul_assoc, h, Matrix.one_mul]

end Spec

namespace MatrixModelView

open OpenGL

variable {K : Type} [Field K]

/-- The calls of `placeCamera` post-multiply the current model-view matrix by
`T(c) * Rx(pitch) * Ry(heading) * Rz(roll)`. -/
theorem placeCamera_toMatrix (T : Trig K) (s : ModelGL K) (ctx : Context K)
    (h : ctx.matrixMode = .modelview) :
    toMatrix (placeCamera T s ctx).modelview =
      toMatrix ctx.modelview *
        (Spec.Tr (s.cameraPosition 0) (s.cameraPosition 1) (s.cameraPosition 2) *
          Spec.Rx T (s.cameraAngle 0) * Spec.Ry T (s.cameraAngle 1) *
          Spec.Rz T (s.cameraAngle 2)) := by
  simp only [placeCamera]
  rw [modelview_glRotatef, modelview_glRotatef, modelview_glRotatef, modelview_glTranslatef _ _ _ _ h]
  · simp only [toMatrix_mult, toMatrix_rotation_x, toMatrix_rotation_y, toMatrix_rotation_z,
      toMatrix_translation, Matrix.mul_assoc]
  · rw [matrixMode_glTranslatef, h]
  · rw [matrixMode_glRotatef, matrixMode_glTranslatef, h]
  · rw [matrixMode_glRotatef, matrixMode_glRotatef, matrixMode_glTranslatef, h]

/-- C22: for every camera pose, the view matrix composed in `drawSub1` is the
two-sided inverse of the camera's world transform
`T(x,y,z) * Rx(pitch) * Ry(heading) * Rz(roll)` that `drawSub2` applies before
drawing the camera glyph: the product of the two matrices is the identity in
either order. Cosine and sine enter through `cos² + sin² = 1`,
`cos(-a) = cos a` and `sin(-a) = -sin a`. -/
theorem view_inverts_camera_transform (T : Trig K)
    (hp : ∀ a, T.cos a * T.cos a + T.sin a * T.sin a = 1)
    (hc : ∀ a, T.cos (-a) = T.cos a) (hs : ∀ a, T.sin (-a) = -T.sin a)
    (s : ModelGL K) (ctx ctx2 : Context K) :
    toMatrix (placeCamera T s (glLoadIdentity (glMatrixMode .modelview ctx2))).modelview =
      Spec.Tr (s.cameraPosition 0) (s.cameraPosition 1) (s.cameraPosition 2) *
        Spec.Rx T (s.cameraAngle 0) * Spec.Ry T (s.cameraAngle 1) *
        Spec.Rz T (s.cameraAngle 2) ∧
    toMatrix (drawSub1 T s ctx).1.matrixView *
        toMatrix (placeCamera T s (glLoadIdentity (glMatrixMode .modelview ctx2))).modelview =
      1 ∧
    toMatrix (placeCamera T s (glLoadIdentity (glMatrixMode .modelview ctx2))).modelview *
        toMatrix (drawSub1 T s ctx).1.matrixView = 1 ∧
    toMatrix (placeCamera T s (glMatrixMode .modelview ctx2)).modelview =
      toMatrix ctx2.modelview *
        (Spec.Tr (s.cameraPosition 0) (s.cameraPosition 1) (s.cameraPosition 2) *
          Spec.Rx T (s.cameraAngle 0) * Spec.Ry T (s.cameraAngle 1) *
          Spec.Rz T (s.cameraAngle 2)) := by
  have hm : (glLoadIdentity (glMatrixMode .modelview ctx2)).matrixMode = .modelview := by
    rw [matrixMode_glLoadIdentity]
    rfl
  have hW : toMatrix (placeCamera T s (glLoadIdentity (glMatrixMode .modelview ctx2))).modelview =
      Spec.Tr (s.cameraPosition 0) (s.cameraPosition 1) (s.cameraPosition 2) *
        Spec.Rx T (s.cameraAngle 0) * Spec.Ry T (s.cameraAngle 1) *
        Spec.Rz T (s.cameraAngle 2) := by
    rw [placeCamera_toMatrix T s _ hm, modelview_glLoadIdentity _ rfl, toMatrix_identity,
      Matrix.one_mul]
  have hx1 := Spec.Rx_mul_neg T hp hc hs (s.cameraAngle 0)
  have hy1 := Spec.Ry_mul_neg T hp hc hs (s.cameraAngle 1)
  have hz1 := Spec.Rz_mul_neg T hp hc hs (s.cameraAngle 2)
  have ht1 := Spec.Tr_mul_neg (s.cameraPosition 0) (s.cameraPosition 1) (s.cameraPosition 2)
  have hx2 := Spec.Rx_mul_neg T hp hc hs (-s.cameraAngle 0)
  have hy2 := Spec.Ry_mul_neg T hp hc hs (-s.cameraAngle 1)
  have hz2 := Spec.Rz_mul_neg T hp hc hs (-s.cameraAngle 2)
  have ht2 := Spec.Tr_mul_neg (-s.cameraPosition 0) (-s.cameraPosition 1)
    (-s.cameraPosition 2)
  rw [neg_neg] at hx2 hy2 hz2
  rw [neg_neg, neg_neg, neg_neg] at ht2
  refine ⟨hW, ?_, ?_, placeCamera_toMatrix T s _ rfl⟩
  · rw [hW, drawSub1_view_toMatrix, Matrix.one_mul]
    simp only [Matrix.mul_assoc]
    rw [Spec.mul_cancel_left _ _ _ ht2, Spec.mul_cancel_left _ _ _ hx2,
      Spec.mul_cancel_left _ _ _ hy2, hz2]
  · rw [hW, drawSub1_view_toMatrix, Matrix.one_mul]
    simp only [Matrix.mul_assoc]
    rw [Spec.mul_cancel_left _ _ _ hz1, Spec.mul_cancel_left _ _ _ hy1,
      Spec.mul_cancel_left _ _ _ hx1, ht1]

/-- Witness of C22: the rational cosine/sine pair and a fresh object with camera
pose (1, 2, 3, 1/2, 1/3, 2). -/
theorem view_inverts_camera_transform_witness :
    (∀ a, ratTrig.cos a * ratTrig.cos a + ratTrig.sin a * ratTrig.sin a = 1) ∧
    (∀ a, ratTrig.cos (-a) = ratTrig.cos a) ∧ (∀ a, ratTrig.sin (-a) = -ratTrig.sin a) ∧
    toMatrix (drawSub1 ratTrig
        (setViewMatrix 1 2 3 (1 / 2) (1 / 3) 2 (ModelGL.new 0 0 : ModelGL ℚ))
        (Context.mk MatrixMode.modelview identity [] identity [])).1.matrixView *
      toMatrix (placeCamera ratTrig
        (setViewMatrix 1 2 3 (1 / 2) (1 / 3) 2 (ModelGL.new 0 0 : ModelGL ℚ))
        (glLoadIdentity (glMatrixMode .modelview
          (Context.mk MatrixMode.modelview identity [] identity [])))).modelview = 1 := by
  have hp : ∀ a, ratTrig.cos a * ratTrig.cos a + ratTrig.sin a * ratTrig.sin a = 1 := by
    intro a
    have h0 : 1 + a * a ≠ 0 := ne_of_gt (by nlinarith [mul_self_nonneg a])
    simp only [ratTrig]
    field_simp
    ring
  have hc : ∀ a, ratTrig.cos (-a) = ratTrig.cos a := by
    intro a
    simp [ratTrig]
  have hs : ∀ a, ratTrig.sin (-a) = -ratTrig.sin a := by
    intro a
    simp only [ratTrig]
    ring
  exact ⟨hp, hc, hs,
    (view_inverts_camera_transform ratTrig hp hc hs
      (setViewMatrix 1 2 3 (1 / 2) (1 / 3) 2 (ModelGL.new 0 0 : ModelGL ℚ))
      (Context.mk MatrixMode.modelview identity [] identity [])
      (Context.mk MatrixMode.modelview identity [] identity [])).2.1⟩

end MatrixModelView

/-! ## Degenerate bounds: near = far -/

namespace Vectors.Vector3

end Vectors.Vector3

namespace MatrixProjection

open OpenGL Vectors

end MatrixProjection
